import Mathlib

/-!
# Keilduino timer core and tone generator

A shallow embedding of `Core/timer.c` of the AT32F4xx port (register math, timer
control, interrupt dispatch) and of `ArduinoAPI/Tone.cpp` of the STM32F10x port
(interrupt-driven and blocking tone).

Conventions of the embedding
* `uint16_t` / `uint32_t` values are natural numbers; every place where the C
  code stores into a 16-bit or 32-bit object is an explicit `% 65536` / `% 2^32`.
* `int32_t` values are integers in `[-2^31, 2^31)`; `int32` is the conversion to
  `int32_t` (two's complement wrap-around, which is what the Keil tool chain does
  on conversion and on signed overflow).
* A division whose divisor is zero has no defined result: the function that
  performs it returns `none`.
* `*period` and `*prescaler` are out-parameters; a function that may leave them
  unwritten takes their contents before the call as arguments and returns their
  contents after the call.
* The busy-wait loops of the blocking tone functions take the number of passes they
  may run (`fuel`) and return `none` when that number does not suffice.
-/

namespace Keilduino

/-! ## Machine arithmetic -/

/-- Conversion of an integer to `int32_t`: the value congruent to `z` modulo `2^32`
that lies in `[-2^31, 2^31)`. -/
def int32 (z : Int) : Int := (z + 2147483648) % 4294967296 - 2147483648

/-- The macro `CLOCK_ABS(x)`, which is `(((x)>0)?(x):-(x))`, on an `int32_t` operand. -/
def CLOCK_ABS (x : Int) : Int := if x > 0 then x else int32 (-x)

/-! ## Register math: frequency to (period, prescaler) -/

/-- The variables of `Timer_FreqToArrPsc` that the search loops update: the local
`max_error`, the two out-parameters, and whether `goto success` has been taken. -/
structure Search where
  max_error : Nat
  period : Nat
  prescaler : Nat
  success : Bool
  deriving DecidableEq, Repr

/-- The statement `int32_t newerr = arr * psc - prodect; newerr = CLOCK_ABS(newerr);`. -/
def newerr (prodect psc arr : Nat) : Int :=
  CLOCK_ABS (int32 ((arr : Int) * (psc : Int) - (prodect : Int)))

/-- The inner loop `for(arr = ...; arr < 0xFFFF; arr++)` of `Timer_FreqToArrPsc`,
entered with the current value of `arr`. -/
def arrLoop (prodect psc arr : Nat) (st : Search) : Search :=
  if arr < 0xFFFF then
    let e := newerr prodect psc arr
    if e < (st.max_error : Int) then
      let max_error := (e % 65536).toNat
      if max_error = 0 then
        { max_error := max_error, period := arr, prescaler := psc, success := true }
      else
        arrLoop prodect psc (arr + 1)
          { max_error := max_error, period := arr, prescaler := psc, success := false }
    else
      arrLoop prodect psc (arr + 1) st
  else
    st
termination_by 0xFFFF - arr

/-- The outer loop `for(; psc > 1; psc--)` of `Timer_FreqToArrPsc`. -/
def pscLoop (prodect psc : Nat) (st : Search) : Search :=
  if psc > 1 then
    let st1 := arrLoop prodect psc psc st
    if st1.success then st1 else pscLoop prodect (psc - 1) st1
  else
    st
termination_by psc

/-- Result of `Timer_FreqToArrPsc`: the returned `int32_t` and the contents of
`*period` and `*prescaler` after the call. -/
structure FreqResult where
  ret : Int
  period : Nat
  prescaler : Nat
  deriving DecidableEq, Repr

/-- The function `Timer_FreqToArrPsc(freq, clock, &period, &prescaler)`. The arguments
`period` and `prescaler` are the contents of the two out-parameters before the call.
`psc = sqrt(prodect)` is the truncated double-precision square root, which for a
32-bit operand is the integer square root. The result is `none` when the division
at label `success` has a zero divisor. -/
def Timer_FreqToArrPsc (freq clock : Nat) (period prescaler : Nat) : Option FreqResult :=
  if freq = 0 ∨ freq > clock then
    some { ret := int32 ((freq : Int) - (clock : Int)), period := period, prescaler := prescaler }
  else
    let prodect := clock / freq
    let psc := Nat.sqrt prodect
    let st := pscLoop prodect psc
      { max_error := 0xFFFF, period := period, prescaler := prescaler, success := false }
    let divisor := (st.period * st.prescaler) % 4294967296
    if divisor = 0 then
      none
    else
      some { ret := int32 ((freq : Int) - ((clock / divisor : Nat) : Int)),
             period := st.period, prescaler := st.prescaler }

/-! ## Register math: time to (period, prescaler) -/

/-- Result of `Timer_TimeToArrPsc`: the values stored to `*period` and `*prescaler`. -/
structure ArrPsc where
  period : Nat
  prescaler : Nat
  deriving DecidableEq, Repr

/-- The function `Timer_TimeToArrPsc(time, clock, &period, &prescaler)`. Both
out-parameters are written on every path that completes; the result is `none`
when `psc = prodect / arr` is executed with `arr == 0`. -/
def Timer_TimeToArrPsc (time clock : Nat) : Option ArrPsc :=
  let cyclesPerMicros := clock / 1000000
  let prodect := (time * cyclesPerMicros) % 4294967296
  if prodect < (cyclesPerMicros * 30) % 4294967296 then
    let arr := 10
    some { period := arr, prescaler := (prodect / arr) % 65536 }
  else if prodect < 65535 * 1000 then
    let arr := (prodect / 1000) % 65536
    if arr = 0 then none
    else some { period := arr, prescaler := (prodect / arr) % 65536 }
  else
    let arr := (prodect / 20000) % 65536
    if arr = 0 then none
    else some { period := arr, prescaler := (prodect / arr) % 65536 }

/-! ## Timer identities, handles and module state -/

/-- The enumeration `TIMER_Type` of timer identities (the bound `TIMER_MAX` is the
number of constructors). -/
inductive TIMER_Type
  | TIMER1 | TIMER2 | TIMER3 | TIMER4 | TIMER5 | TIMER6 | TIMER7 | TIMER8
  | TIMER9 | TIMER10 | TIMER11 | TIMER12 | TIMER13 | TIMER14 | TIMER15
  deriving DecidableEq, Repr

/-- Modelled from the spec: `timer.h` and the device header, which declare the
peripheral type, the addresses `TIM1` .. `TIM15` and `IS_TMR_ALL_PERIPH`, are not among
the sources. A handle `TIM_TypeDef*` is the address of one of the fifteen supported
peripherals (`TIM n`, one per timer identity) or some other address, for which the
identity lookup fails. -/
inductive TIM_TypeDef
  | TIM (n : TIMER_Type)
  | other (addr : Nat)
  deriving DecidableEq, Repr

/-- Modelled from the spec: `IS_TMR_ALL_PERIPH` is declared in the vendor library, which
is not among the sources; it accepts exactly the supported peripherals. -/
def IS_TMR_ALL_PERIPH : TIM_TypeDef → Bool
  | .TIM _ => true
  | .other _ => false

/-- The interrupt lines named in `Timer_SetInterruptBase`. -/
inductive IRQn_Type
  | TMR1_OV_TMR10_IRQn | TMR2_GLOBAL_IRQn | TMR3_GLOBAL_IRQn | TMR4_GLOBAL_IRQn
  | TMR5_GLOBAL_IRQn | TMR6_GLOBAL_IRQn | TMR7_GLOBAL_IRQn | TMR8_OV_TMR13_IRQn
  | TMR1_BRK_TMR9_IRQn | TMR1_TRG_HALL_TMR11_IRQn | TMR8_BRK_TMR12_IRQn
  | TMR8_TRG_HALL_TMR14_IRQn | TMR15_OV_IRQn
  deriving DecidableEq, Repr

open TIMER_Type TIM_TypeDef IRQn_Type

/-- Constants of the build that `timer.c` uses and that are declared outside the
sources: the macro `F_CPU`, the numbering of the interrupt lines in the device
header, and the reset values of the reload and prescaler registers. -/
structure Device where
  F_CPU : Nat
  irqNumber : IRQn_Type → Nat
  resetAR : Nat
  resetDIV : Nat

/-- A callback `Timer_CallbackFunction_t` is a function address; `0` is the null
pointer. -/
abbrev Timer_CallbackFunction_t := Nat

/-- The structure `TMR_TimerBaseInitType` as filled in by `Timer_SetInterruptBase`. -/
structure TMR_TimerBaseInitType where
  TMR_RepetitionCounter : Nat
  TMR_Period : Nat
  TMR_DIV : Nat
  clockDivision1 : Bool
  counterDirUp : Bool
  plusEnable : Bool
  deriving DecidableEq, Repr

/-- The structure `NVIC_InitType` as filled in by `Timer_SetInterruptBase`. -/
structure NVIC_InitType where
  NVIC_IRQChannel : Nat
  NVIC_IRQChannelPreemptionPriority : Nat
  NVIC_IRQChannelSubPriority : Nat
  NVIC_IRQChannelCmd : Bool
  deriving DecidableEq, Repr

/-- Effects of `timer.c` that are visible outside it, in program order: the store to
the callback table, the calls into the vendor library, and the invocation of a
stored callback (whose body lies outside this module). -/
inductive Effect
  | storeCallback (n : TIMER_Type) (f : Timer_CallbackFunction_t)
  | RCC_APB1PeriphClockCmd (n : TIMER_Type) (NewState : Bool)
  | RCC_APB2PeriphClockCmd (n : TIMER_Type) (NewState : Bool)
  | TMR_Reset (n : TIMER_Type)
  | TMR_TimeBaseInit (n : TIMER_Type) (init : TMR_TimerBaseInitType)
  | NVIC_Init (init : NVIC_InitType)
  | TMR_ClearFlag (n : TIMER_Type)
  | TMR_INTConfig (n : TIMER_Type) (NewState : Bool)
  | TMR_SetAutoreload (n : TIMER_Type) (Autoreload : Nat)
  | TMR_DIVConfig (n : TIMER_Type) (Prescaler : Nat)
  | TMR_ClearITPendingBit (n : TIMER_Type)
  | callback (n : TIMER_Type) (f : Timer_CallbackFunction_t)
  deriving DecidableEq, Repr

/-- The state the module works on: its callback table `TIMx_Function`, and per
peripheral the reload register `AR`, the prescaler register `DIV`, the counting
direction, the bus clock gate, the pending overflow flag and the overflow interrupt
enable; the interrupt-controller configuration per channel; and the effects so far. -/
structure State where
  TIMx_Function : TIMER_Type → Timer_CallbackFunction_t
  AR : TIMER_Type → Nat
  DIV : TIMER_Type → Nat
  countUp : TIMER_Type → Bool
  clockEnabled : TIMER_Type → Bool
  pending : TIMER_Type → Bool
  overflowInt : TIMER_Type → Bool
  nvic : Nat → Option NVIC_InitType
  log : List Effect

/-! ## Vendor library -/

/-- Modelled from the spec: the vendor library is not among the sources.
`RCC_APB1PeriphClockCmd` switches the bus clock of the addressed peripheral. -/
def RCC_APB1PeriphClockCmd (n : TIMER_Type) (NewState : Bool) (s : State) : State :=
  { s with clockEnabled := Function.update s.clockEnabled n NewState,
           log := s.log ++ [Effect.RCC_APB1PeriphClockCmd n NewState] }

/-- Modelled from the spec: the vendor library is not among the sources.
`RCC_APB2PeriphClockCmd` switches the bus clock of the addressed peripheral. -/
def RCC_APB2PeriphClockCmd (n : TIMER_Type) (NewState : Bool) (s : State) : State :=
  { s with clockEnabled := Function.update s.clockEnabled n NewState,
           log := s.log ++ [Effect.RCC_APB2PeriphClockCmd n NewState] }

/-- Modelled from the spec: the vendor library is not among the sources. `TMR_Reset`
puts the peripheral configuration into its known reset state. -/
def TMR_Reset (dev : Device) (TIMx : TIM_TypeDef) (s : State) : State :=
  match TIMx with
  | .TIM n =>
    { s with AR := Function.update s.AR n dev.resetAR,
             DIV := Function.update s.DIV n dev.resetDIV,
             countUp := Function.update s.countUp n true,
             pending := Function.update s.pending n false,
             overflowInt := Function.update s.overflowInt n false,
             log := s.log ++ [Effect.TMR_Reset n] }
  | .other _ => s

/-- Modelled from the spec: the vendor library is not among the sources.
`TMR_TimeBaseInit` programs the reload and prescaler registers and the counting
direction. -/
def TMR_TimeBaseInit (TIMx : TIM_TypeDef) (init : TMR_TimerBaseInitType) (s : State) : State :=
  match TIMx with
  | .TIM n =>
    { s with AR := Function.update s.AR n init.TMR_Period,
             DIV := Function.update s.DIV n init.TMR_DIV,
             countUp := Function.update s.countUp n init.counterDirUp,
             log := s.log ++ [Effect.TMR_TimeBaseInit n init] }
  | .other _ => s

/-- Modelled from the spec: the vendor library is not among the sources. `NVIC_Init`
configures priority and enable of one interrupt channel. -/
def NVIC_Init (init : NVIC_InitType) (s : State) : State :=
  { s with nvic := Function.update s.nvic init.NVIC_IRQChannel (some init),
           log := s.log ++ [Effect.NVIC_Init init] }

/-- Modelled from the spec: the vendor library is not among the sources.
`TMR_ClearFlag(TIMx, TMR_FLAG_Update)` clears the pending update flag. -/
def TMR_ClearFlag (TIMx : TIM_TypeDef) (s : State) : State :=
  match TIMx with
  | .TIM n =>
    { s with pending := Function.update s.pending n false,
             log := s.log ++ [Effect.TMR_ClearFlag n] }
  | .other _ => s

/-- Modelled from the spec: the vendor library is not among the sources.
`TMR_INTConfig(TIMx, TMR_INT_Overflow, NewState)` switches the overflow interrupt
source. -/
def TMR_INTConfig (TIMx : TIM_TypeDef) (NewState : Bool) (s : State) : State :=
  match TIMx with
  | .TIM n =>
    { s with overflowInt := Function.update s.overflowInt n NewState,
             log := s.log ++ [Effect.TMR_INTConfig n NewState] }
  | .other _ => s

/-- Modelled from the spec: the vendor library is not among the sources.
`TMR_SetAutoreload` writes the reload register and nothing else. -/
def TMR_SetAutoreload (TIMx : TIM_TypeDef) (Autoreload : Nat) (s : State) : State :=
  match TIMx with
  | .TIM n =>
    { s with AR := Function.update s.AR n Autoreload,
             log := s.log ++ [Effect.TMR_SetAutoreload n Autoreload] }
  | .other _ => s

/-- Modelled from the spec: the vendor library is not among the sources.
`TMR_DIVConfig(TIMx, Prescaler, TMR_DIVReloadMode_Immediate)` writes the prescaler
register and nothing else. -/
def TMR_DIVConfig (TIMx : TIM_TypeDef) (Prescaler : Nat) (s : State) : State :=
  match TIMx with
  | .TIM n =>
    { s with DIV := Function.update s.DIV n Prescaler,
             log := s.log ++ [Effect.TMR_DIVConfig n Prescaler] }
  | .other _ => s

/-- Modelled from the spec: the vendor library is not among the sources.
`TMR_GetINTStatus(TMRn, TMR_INT_Overflow) != RESET` reads the pending overflow flag. -/
def TMR_GetINTStatus (n : TIMER_Type) (s : State) : Bool := s.pending n

/-- Modelled from the spec: the vendor library is not among the sources.
`TMR_ClearITPendingBit(TIMn, TMR_INT_Overflow)` clears the pending overflow flag. -/
def TMR_ClearITPendingBit (n : TIMER_Type) (s : State) : State :=
  { s with pending := Function.update s.pending n false,
           log := s.log ++ [Effect.TMR_ClearITPendingBit n] }

/-- The register `TIMx->AR` as read through a handle. -/
def readAR (TIMx : TIM_TypeDef) (s : State) : Nat :=
  match TIMx with
  | .TIM n => s.AR n
  | .other _ => 0

/-- The register `TIMx->DIV` as read through a handle. -/
def readDIV (TIMx : TIM_TypeDef) (s : State) : Nat :=
  match TIMx with
  | .TIM n => s.DIV n
  | .other _ => 0

/-- The value of `x - 1` for a `uint16_t` variable `x`, stored into a 16-bit register
field: `0` gives `0xFFFF`. -/
def minusOne16 (x : Nat) : Nat := (x + 65535) % 65536

/-! ## Timer control -/

/-- The function `Timer_ClockCmd(TIMx, NewState)`. -/
def Timer_ClockCmd (TIMx : TIM_TypeDef) (NewState : Bool) (s : State) : State :=
  if TIMx = TIM TIMER1 then RCC_APB2PeriphClockCmd TIMER1 NewState s
  else if TIMx = TIM TIMER2 then RCC_APB1PeriphClockCmd TIMER2 NewState s
  else if TIMx = TIM TIMER3 then RCC_APB1PeriphClockCmd TIMER3 NewState s
  else if TIMx = TIM TIMER4 then RCC_APB1PeriphClockCmd TIMER4 NewState s
  else if TIMx = TIM TIMER5 then RCC_APB1PeriphClockCmd TIMER5 NewState s
  else if TIMx = TIM TIMER6 then RCC_APB1PeriphClockCmd TIMER6 NewState s
  else if TIMx = TIM TIMER7 then RCC_APB1PeriphClockCmd TIMER7 NewState s
  else if TIMx = TIM TIMER8 then RCC_APB2PeriphClockCmd TIMER8 NewState s
  else if TIMx = TIM TIMER9 then RCC_APB2PeriphClockCmd TIMER9 NewState s
  else if TIMx = TIM TIMER10 then RCC_APB2PeriphClockCmd TIMER10 NewState s
  else if TIMx = TIM TIMER11 then RCC_APB2PeriphClockCmd TIMER11 NewState s
  else if TIMx = TIM TIMER12 then RCC_APB1PeriphClockCmd TIMER12 NewState s
  else if TIMx = TIM TIMER13 then RCC_APB1PeriphClockCmd TIMER13 NewState s
  else if TIMx = TIM TIMER14 then RCC_APB1PeriphClockCmd TIMER14 NewState s
  else if TIMx = TIM TIMER15 then RCC_APB2PeriphClockCmd TIMER15 NewState s
  else s

/-- The macro `TMRx_IRQ_DEF(n, x_IRQn)` of `Timer_SetInterruptBase`, acting on the
locals `TIMERx` and `TMRx_IRQn` (a `uint8_t`); `none` stands for the two locals
before their first assignment. -/
def TMRx_IRQ_DEF (dev : Device) (TIMx : TIM_TypeDef) (n : TIMER_Type) (x_IRQn : IRQn_Type)
    (locals : Option (TIMER_Type × Nat)) : Option (TIMER_Type × Nat) :=
  if TIMx = TIM n then some (n, dev.irqNumber x_IRQn % 256) else locals

/-- The fifteen `TMRx_IRQ_DEF` lines of `Timer_SetInterruptBase`, in source order. -/
def TMRx_IRQ_DEF_all (dev : Device) (TIMx : TIM_TypeDef) : Option (TIMER_Type × Nat) :=
  let l := TMRx_IRQ_DEF dev TIMx TIMER1 TMR1_OV_TMR10_IRQn none
  let l := TMRx_IRQ_DEF dev TIMx TIMER2 TMR2_GLOBAL_IRQn l
  let l := TMRx_IRQ_DEF dev TIMx TIMER3 TMR3_GLOBAL_IRQn l
  let l := TMRx_IRQ_DEF dev TIMx TIMER4 TMR4_GLOBAL_IRQn l
  let l := TMRx_IRQ_DEF dev TIMx TIMER5 TMR5_GLOBAL_IRQn l
  let l := TMRx_IRQ_DEF dev TIMx TIMER6 TMR6_GLOBAL_IRQn l
  let l := TMRx_IRQ_DEF dev TIMx TIMER7 TMR7_GLOBAL_IRQn l
  let l := TMRx_IRQ_DEF dev TIMx TIMER8 TMR8_OV_TMR13_IRQn l
  let l := TMRx_IRQ_DEF dev TIMx TIMER9 TMR1_BRK_TMR9_IRQn l
  let l := TMRx_IRQ_DEF dev TIMx TIMER10 TMR1_OV_TMR10_IRQn l
  let l := TMRx_IRQ_DEF dev TIMx TIMER11 TMR1_TRG_HALL_TMR11_IRQn l
  let l := TMRx_IRQ_DEF dev TIMx TIMER12 TMR8_BRK_TMR12_IRQn l
  let l := TMRx_IRQ_DEF dev TIMx TIMER13 TMR8_OV_TMR13_IRQn l
  let l := TMRx_IRQ_DEF dev TIMx TIMER14 TMR8_TRG_HALL_TMR14_IRQn l
  TMRx_IRQ_DEF dev TIMx TIMER15 TMR15_OV_IRQn l

/-- The function `Timer_SetInterruptBase(TIMx, period, prescaler, function,
PreemptionPriority, SubPriority)`. -/
def Timer_SetInterruptBase (dev : Device) (TIMx : TIM_TypeDef) (period prescaler : Nat)
    (function : Timer_CallbackFunction_t) (PreemptionPriority SubPriority : Nat)
    (s : State) : State :=
  if !IS_TMR_ALL_PERIPH TIMx then s
  else
    match TMRx_IRQ_DEF_all dev TIMx with
    | none => s
    | some (TIMERx, TMRx_IRQn) =>
      if TMRx_IRQn = 0 then s
      else
        let s := { s with TIMx_Function := Function.update s.TIMx_Function TIMERx function,
                          log := s.log ++ [Effect.storeCallback TIMERx function] }
        let s := TMR_Reset dev TIMx s
        let s := Timer_ClockCmd TIMx true s
        let TMR_TimeBaseStructure : TMR_TimerBaseInitType :=
          { TMR_RepetitionCounter := 0,
            TMR_Period := minusOne16 period,
            TMR_DIV := minusOne16 prescaler,
            clockDivision1 := true,
            counterDirUp := true,
            plusEnable := true }
        let s := TMR_TimeBaseInit TIMx TMR_TimeBaseStructure s
        let NVIC_InitStructure : NVIC_InitType :=
          { NVIC_IRQChannel := TMRx_IRQn,
            NVIC_IRQChannelPreemptionPriority := PreemptionPriority,
            NVIC_IRQChannelSubPriority := SubPriority,
            NVIC_IRQChannelCmd := true }
        let s := NVIC_Init NVIC_InitStructure s
        let s := TMR_ClearFlag TIMx s
        TMR_INTConfig TIMx true s

/-- The function `Timer_SetInterruptFreqUpdate(TIMx, freq)`; `period` and `prescaler`
are the indeterminate initial contents of its two uninitialised locals. The result is
`none` when `Timer_FreqToArrPsc` divides by zero. -/
def Timer_SetInterruptFreqUpdate (dev : Device) (TIMx : TIM_TypeDef) (freq : Nat)
    (period prescaler : Nat) (s : State) : Option State :=
  let clock := dev.F_CPU / 2
  if !IS_TMR_ALL_PERIPH TIMx || freq == 0 then some s
  else
    match Timer_FreqToArrPsc freq clock period prescaler with
    | none => none
    | some r =>
      let s := TMR_SetAutoreload TIMx (minusOne16 r.period) s
      some (TMR_DIVConfig TIMx (minusOne16 r.prescaler) s)

/-- The function `Timer_GetClockOut(TIMx)`; the result is `none` when the divisor
`(TIMx->AR + 1) * (TIMx->DIV + 1)`, a 32-bit product, is zero. -/
def Timer_GetClockOut (dev : Device) (TIMx : TIM_TypeDef) (s : State) : Option Nat :=
  let clock := dev.F_CPU / 2
  if !IS_TMR_ALL_PERIPH TIMx then some 0
  else
    let divisor := ((readAR TIMx s + 1) * (readDIV TIMx s + 1)) % 4294967296
    if divisor = 0 then none else some (clock / divisor)

/-- The function `Timer_SetInterruptTimeUpdate(TIMx, time)`. The result is `none` when
`Timer_TimeToArrPsc` divides by zero. -/
def Timer_SetInterruptTimeUpdate (dev : Device) (TIMx : TIM_TypeDef) (time : Nat)
    (s : State) : Option State :=
  let clock := dev.F_CPU / 2
  if !IS_TMR_ALL_PERIPH TIMx then some s
  else
    match Timer_TimeToArrPsc time clock with
    | none => none
    | some r =>
      let s := TMR_SetAutoreload TIMx (minusOne16 r.period) s
      some (TMR_DIVConfig TIMx (minusOne16 r.prescaler) s)

/-! ## Interrupt dispatch -/

/-- The macro `TMRx_IRQHANDLER(n)`: when the overflow flag of timer `n` is pending,
call the stored callback if the slot is not null, then clear the pending flag. -/
def TMRx_IRQHANDLER (n : TIMER_Type) (s : State) : State :=
  if TMR_GetINTStatus n s then
    let s :=
      if s.TIMx_Function n ≠ 0 then
        { s with log := s.log ++ [Effect.callback n (s.TIMx_Function n)] }
      else s
    TMR_ClearITPendingBit n s
  else s

/-- The handler `TMR1_OV_TMR10_IRQHandler`. -/
def TMR1_OV_TMR10_IRQHandler (s : State) : State :=
  let s := TMRx_IRQHANDLER TIMER1 s
  TMRx_IRQHANDLER TIMER10 s

/-- The handler `TMR2_GLOBAL_IRQHandler`. -/
def TMR2_GLOBAL_IRQHandler (s : State) : State := TMRx_IRQHANDLER TIMER2 s

/-- The handler `TMR3_GLOBAL_IRQHandler`. -/
def TMR3_GLOBAL_IRQHandler (s : State) : State := TMRx_IRQHANDLER TIMER3 s

/-- The handler `TMR4_GLOBAL_IRQHandler`. -/
def TMR4_GLOBAL_IRQHandler (s : State) : State := TMRx_IRQHANDLER TIMER4 s

/-- The handler `TMR5_GLOBAL_IRQHandler`. -/
def TMR5_GLOBAL_IRQHandler (s : State) : State := TMRx_IRQHANDLER TIMER5 s

/-- The handler `TMR6_GLOBAL_IRQHandler`. -/
def TMR6_GLOBAL_IRQHandler (s : State) : State := TMRx_IRQHANDLER TIMER6 s

/-- The handler `TMR7_GLOBAL_IRQHandler`. -/
def TMR7_GLOBAL_IRQHandler (s : State) : State := TMRx_IRQHANDLER TIMER7 s

/-- The handler `TMR8_OV_TMR13_IRQHandler`. -/
def TMR8_OV_TMR13_IRQHandler (s : State) : State :=
  let s := TMRx_IRQHANDLER TIMER8 s
  TMRx_IRQHANDLER TIMER13 s

/-- The handler `TMR15_OV_IRQHandler`. -/
def TMR15_OV_IRQHandler (s : State) : State := TMRx_IRQHANDLER TIMER15 s

/-! ## Definitions used to state the properties -/

/-- Distance of the product `a * p` from the target product `P`. -/
def deviation (P a p : Nat) : Nat := Int.natAbs ((a : Int) * (p : Int) - (P : Int))

/-- Invariant of the search state of `Timer_FreqToArrPsc`: `max_error` never exceeds
its initial value, `goto success` is taken only at `max_error == 0`, and once a pair
has been stored it lies in the search domain (prescaler between `2` and `S`, period
between the prescaler and `65534`) and `max_error` is its deviation from `P`. -/
def SearchInv (P S : Nat) (st : Search) : Prop :=
  st.max_error ≤ 65535 ∧
  (st.success = true → st.max_error = 0) ∧
  (st.max_error < 65535 →
    2 ≤ st.prescaler ∧ st.prescaler ≤ S ∧ st.prescaler ≤ st.period ∧ st.period ≤ 65534 ∧
    deviation P st.period st.prescaler = st.max_error)

/-- The interrupt line that the `TMRx_IRQ_DEF` lines of `Timer_SetInterruptBase` pair
with each timer identity. -/
def irqLine : TIMER_Type → IRQn_Type
  | TIMER1 => TMR1_OV_TMR10_IRQn
  | TIMER2 => TMR2_GLOBAL_IRQn
  | TIMER3 => TMR3_GLOBAL_IRQn
  | TIMER4 => TMR4_GLOBAL_IRQn
  | TIMER5 => TMR5_GLOBAL_IRQn
  | TIMER6 => TMR6_GLOBAL_IRQn
  | TIMER7 => TMR7_GLOBAL_IRQn
  | TIMER8 => TMR8_OV_TMR13_IRQn
  | TIMER9 => TMR1_BRK_TMR9_IRQn
  | TIMER10 => TMR1_OV_TMR10_IRQn
  | TIMER11 => TMR1_TRG_HALL_TMR11_IRQn
  | TIMER12 => TMR8_BRK_TMR12_IRQn
  | TIMER13 => TMR8_OV_TMR13_IRQn
  | TIMER14 => TMR8_TRG_HALL_TMR14_IRQn
  | TIMER15 => TMR15_OV_IRQn

/-- The dispatch rule of the specification for one peripheral instance, as the list of
effects it prescribes on interrupt entry in state `s`: check the pending overflow flag;
if it is set, invoke the stored callback (nothing when none is registered), then clear
the pending flag of that instance. -/
def dispatchSpec (n : TIMER_Type) (s : State) : List Effect :=
  if s.pending n = true then
    (if s.TIMx_Function n = 0 then [] else [Effect.callback n (s.TIMx_Function n)])
      ++ [Effect.TMR_ClearITPendingBit n]
  else []

/-- A sample build: 200 MHz core clock, every timer interrupt line on a non-zero
channel, reset values `0xFFFF` and `0` of the reload and prescaler registers. -/
def sampleDevice : Device :=
  { F_CPU := 200000000,
    irqNumber := fun l =>
      match l with
      | .TMR1_BRK_TMR9_IRQn => 24
      | .TMR1_OV_TMR10_IRQn => 25
      | .TMR1_TRG_HALL_TMR11_IRQn => 26
      | .TMR2_GLOBAL_IRQn => 28
      | .TMR3_GLOBAL_IRQn => 29
      | .TMR4_GLOBAL_IRQn => 30
      | .TMR8_BRK_TMR12_IRQn => 43
      | .TMR8_OV_TMR13_IRQn => 44
      | .TMR8_TRG_HALL_TMR14_IRQn => 45
      | .TMR5_GLOBAL_IRQn => 50
      | .TMR6_GLOBAL_IRQn => 54
      | .TMR7_GLOBAL_IRQn => 55
      | .TMR15_OV_IRQn => 65,
    resetAR := 0xFFFF,
    resetDIV := 0 }

/-- The state at start-up: the callback table is all null (`= {0}`), every register
is zero, nothing is enabled or pending. -/
def startState : State :=
  { TIMx_Function := fun _ => 0,
    AR := fun _ => 0,
    DIV := fun _ => 0,
    countUp := fun _ => true,
    clockEnabled := fun _ => false,
    pending := fun _ => false,
    overflowInt := fun _ => false,
    nvic := fun _ => none,
    log := [] }

/-! ## Full scan of the search domain -/

/-- The scan of the specification for one candidate prescaler: the inner loop of
`Timer_FreqToArrPsc` without the early termination, scanning every period up to
`65534` and tracking the pair of smallest deviation. -/
def arrScanAll (prodect psc arr : Nat) (st : Search) : Search :=
  if arr < 0xFFFF then
    let e := newerr prodect psc arr
    if e < (st.max_error : Int) then
      arrScanAll prodect psc (arr + 1)
        { max_error := (e % 65536).toNat, period := arr, prescaler := psc, success := false }
    else
      arrScanAll prodect psc (arr + 1) st
  else
    st
termination_by 0xFFFF - arr

/-- The scan of the specification over all candidate prescalers, from `psc` down to
`2`, without the early termination. -/
def pscScanAll (prodect psc : Nat) (st : Search) : Search :=
  if psc > 1 then
    pscScanAll prodect (psc - 1) (arrScanAll prodect psc psc st)
  else
    st
termination_by psc

/-! ## Dispatch layer -/

/-- The interrupt handlers that `timer.c` defines, in source order. -/
def IRQHandlers : List (State → State) :=
  [TMR1_OV_TMR10_IRQHandler, TMR2_GLOBAL_IRQHandler, TMR3_GLOBAL_IRQHandler,
   TMR4_GLOBAL_IRQHandler, TMR5_GLOBAL_IRQHandler, TMR6_GLOBAL_IRQHandler,
   TMR7_GLOBAL_IRQHandler, TMR8_OV_TMR13_IRQHandler, TMR15_OV_IRQHandler]

/-! ## Tone generator (`ArduinoAPI/Tone.cpp`) -/

/-- The callback that `tone` passes to `Timer_Init`. -/
inductive ToneCallback
  | toneTimer_Handler
  deriving DecidableEq, Repr

/-- Effects of `Tone.cpp` outside its own variables, in program order: the calls into
the timer layer and the pin layer, and the busy-wait delays. A timer handle is an
address; `0` is the null pointer. -/
inductive ToneEffect
  | Timer_Init (TIMx : Nat) (time : Nat) (function : ToneCallback)
      (PreemptionPriority SubPriority : Nat)
  | TimerSet_InterruptTimeUpdate (TIMx : Nat) (time : Nat)
  | TIM_Cmd (TIMx : Nat) (NewState : Bool)
  | togglePin (Pin : Nat)
  | digitalWrite_HIGH (Pin : Nat)
  | digitalWrite_LOW (Pin : Nat)
  | delayMicroseconds (us : Nat)
  deriving DecidableEq, Repr

/-- The static variables of `Tone.cpp`, the simulated time base (microseconds elapsed)
and the effects so far. -/
structure ToneState where
  ToneTimer_Last : Nat
  ToneTimer : Nat
  IsToneEnable : Bool
  tone_Pin : Nat
  tone_StopTimePoint : Nat
  elapsed_us : Nat
  log : List ToneEffect
  deriving DecidableEq, Repr

/-- Modelled from the spec: the time base is not among the sources. `millis()` is the
elapsed microseconds divided by 1000, as a `uint32_t`. -/
def millis (s : ToneState) : Nat := s.elapsed_us / 1000 % 4294967296

/-- Modelled from the spec: the time base is not among the sources. `micros()` is the
elapsed microseconds, as a `uint32_t`. -/
def micros (s : ToneState) : Nat := s.elapsed_us % 4294967296

/-- Modelled from the spec: the time base is not among the sources.
`delayMicroseconds(us)` advances the time by exactly `us` microseconds. -/
def delayMicroseconds (us : Nat) (s : ToneState) : ToneState :=
  { s with elapsed_us := s.elapsed_us + us, log := s.log ++ [ToneEffect.delayMicroseconds us] }

/-- Modelled from the spec: the pin layer is not among the sources.
`digitalWrite_HIGH(Pin)` drives the pin high and takes no time. -/
def digitalWrite_HIGH (Pin : Nat) (s : ToneState) : ToneState :=
  { s with log := s.log ++ [ToneEffect.digitalWrite_HIGH Pin] }

/-- Modelled from the spec: the pin layer is not among the sources.
`digitalWrite_LOW(Pin)` drives the pin low and takes no time. -/
def digitalWrite_LOW (Pin : Nat) (s : ToneState) : ToneState :=
  { s with log := s.log ++ [ToneEffect.digitalWrite_LOW Pin] }

/-- Modelled from the spec: the pin layer is not among the sources. `togglePin(Pin)`
inverts the level of the pin. -/
def togglePin (Pin : Nat) (s : ToneState) : ToneState :=
  { s with log := s.log ++ [ToneEffect.togglePin Pin] }

/-- Modelled from the spec: the timer layer of the STM32F10x port is not among the
sources. `TIM_Cmd(TIMx, NewState)` starts or stops the counter of the timer. -/
def TIM_Cmd (TIMx : Nat) (NewState : Bool) (s : ToneState) : ToneState :=
  { s with log := s.log ++ [ToneEffect.TIM_Cmd TIMx NewState] }

/-- Modelled from the spec: the timer layer of the STM32F10x port is not among the
sources. `Timer_Init(TIMx, time, function, PreemptionPriority, SubPriority)` is the
full configuration of a timer interrupt with period `time` microseconds. -/
def Timer_Init (TIMx time : Nat) (function : ToneCallback)
    (PreemptionPriority SubPriority : Nat) (s : ToneState) : ToneState :=
  { s with log := s.log ++
      [ToneEffect.Timer_Init TIMx time function PreemptionPriority SubPriority] }

/-- Modelled from the spec: the timer layer of the STM32F10x port is not among the
sources. `TimerSet_InterruptTimeUpdate(TIMx, time)` is the cheap update of the
interrupt period of a configured timer. -/
def TimerSet_InterruptTimeUpdate (TIMx time : Nat) (s : ToneState) : ToneState :=
  { s with log := s.log ++ [ToneEffect.TimerSet_InterruptTimeUpdate TIMx time] }

/-- The function `noTone(Pin)`. The macro `IS_PIN` is declared outside the sources and
is a parameter. -/
def noTone (IS_PIN : Nat → Bool) (Pin : Nat) (s : ToneState) : ToneState :=
  if !IS_PIN Pin then s
  else
    let s := TIM_Cmd s.ToneTimer false s
    let s := digitalWrite_LOW Pin s
    { s with IsToneEnable := false }

/-- The function `toneSetTimer(TIMx)`. -/
def toneSetTimer (TIMx : Nat) (s : ToneState) : ToneState :=
  { s with ToneTimer := TIMx }

/-- The two-argument overload `tone(Pin, freq)`. The argument `500000.0 / freq`, a
`double` converted to the integer period parameter, is the integer quotient
`500000 / freq`. -/
def tone (IS_PIN : Nat → Bool) (Pin freq : Nat) (s : ToneState) : ToneState :=
  if !IS_PIN Pin then s
  else if freq = 0 ∨ freq > 500000 then noTone IS_PIN Pin s
  else
    let s := { s with tone_Pin := Pin }
    let s := { s with IsToneEnable := true }
    if s.ToneTimer ≠ s.ToneTimer_Last then
      let s := Timer_Init s.ToneTimer (500000 / freq) ToneCallback.toneTimer_Handler 0 0 s
      let s := TIM_Cmd s.ToneTimer true s
      { s with ToneTimer_Last := s.ToneTimer }
    else
      let s := TimerSet_InterruptTimeUpdate s.ToneTimer (500000 / freq) s
      TIM_Cmd s.ToneTimer true s

/-- The three-argument overload `tone(Pin, freq, Time_ms)`. -/
def tone_Time_ms (IS_PIN : Nat → Bool) (Pin freq Time_ms : Nat) (s : ToneState) : ToneState :=
  if !IS_PIN Pin then s
  else if freq = 0 ∨ freq > 500000 then noTone IS_PIN Pin s
  else
    let s := tone IS_PIN Pin freq s
    let s := { s with tone_StopTimePoint := (millis s + Time_ms) % 4294967296 }
    { s with IsToneEnable := false }

/-- The function `toneTimer_Handler()`. -/
def toneTimer_Handler (IS_PIN : Nat → Bool) (s : ToneState) : ToneState :=
  let s := togglePin s.tone_Pin s
  if millis s > s.tone_StopTimePoint ∧ s.IsToneEnable = false then
    noTone IS_PIN s.tone_Pin s
  else s

/-- The `do { HIGH; delay; LOW; delay } while(millis() < TimePoint)` loop of
`toneBlock` and `toneBlock_Volumn`, run for at most `fuel` passes; `none` when the
loop is still running after `fuel` passes. -/
def doWhile_millis (Pin dlHigh dlLow TimePoint : Nat) : Nat → ToneState → Option ToneState
  | 0, _ => none
  | fuel + 1, s =>
    let s := digitalWrite_HIGH Pin s
    let s := delayMicroseconds dlHigh s
    let s := digitalWrite_LOW Pin s
    let s := delayMicroseconds dlLow s
    if millis s < TimePoint then doWhile_millis Pin dlHigh dlLow TimePoint fuel s
    else some s

/-- The `do { HIGH; delay; LOW; delay } while(micros() < TimePoint)` loop of
`toneBlock_Volumn_us`, run for at most `fuel` passes; `none` when the loop is
still running after `fuel` passes. -/
def doWhile_micros (Pin dlHigh dlLow TimePoint : Nat) : Nat → ToneState → Option ToneState
  | 0, _ => none
  | fuel + 1, s =>
    let s := digitalWrite_HIGH Pin s
    let s := delayMicroseconds dlHigh s
    let s := digitalWrite_LOW Pin s
    let s := delayMicroseconds dlLow s
    if micros s < TimePoint then doWhile_micros Pin dlHigh dlLow TimePoint fuel s
    else some s

/-- The function `toneBlock(Pin, freq, Time_ms)`, its loop run for at most `fuel`
passes. -/
def toneBlock (IS_PIN : Nat → Bool) (Pin freq Time_ms : Nat) (fuel : Nat) (s : ToneState) :
    Option ToneState :=
  if !IS_PIN Pin || freq == 0 || Time_ms == 0 then some s
  else
    let TimePoint := (millis s + Time_ms) % 4294967296
    let dlyus := 500000 / freq
    match doWhile_millis Pin dlyus dlyus TimePoint fuel s with
    | none => none
    | some s => some (digitalWrite_LOW Pin s)

/-- The statement `uint32_t dlHigh = dlyus * vol;`. The `float` volume is represented
by the fraction `volNum / volDen` with `volDen > 0`, and the product is taken without
rounding error, which is what the `float` product gives whenever it is representable
(as for `vol = 0.25`); the conversion to `uint32_t` truncates. -/
def dlHigh_of (dlyus : Nat) (volNum : Int) (volDen : Nat) : Nat :=
  ((dlyus : Int) * volNum / (volDen : Int)).toNat % 4294967296

/-- The statement `uint32_t dlLow = 2 * dlyus - dlHigh;` in 32-bit arithmetic. -/
def dlLow_of (dlyus dlHigh : Nat) : Nat :=
  (2 * dlyus % 4294967296 + 4294967296 - dlHigh % 4294967296) % 4294967296

/-- The function `toneBlock_Volumn(Pin, freq, Time_ms, vol)` with `vol` the fraction
`volNum / volDen`, its loop run for at most `fuel` passes. -/
def toneBlock_Volumn (IS_PIN : Nat → Bool) (Pin freq Time_ms : Nat) (volNum : Int)
    (volDen : Nat) (fuel : Nat) (s : ToneState) : Option ToneState :=
  if !IS_PIN Pin || freq == 0 || Time_ms == 0 || decide (volNum < 0) then some s
  else
    let TimePoint := (millis s + Time_ms) % 4294967296
    let dlyus := 500000 / freq
    let dlHigh := dlHigh_of dlyus volNum volDen
    let dlLow := dlLow_of dlyus dlHigh
    if freq == 0 then some s
    else
      match doWhile_millis Pin dlHigh dlLow TimePoint fuel s with
      | none => none
      | some s => some (digitalWrite_LOW Pin s)

/-- The function `toneBlock_Volumn_us(Pin, freq, Time_us, vol)` with `vol` the fraction
`volNum / volDen`, its loop run for at most `fuel` passes. -/
def toneBlock_Volumn_us (IS_PIN : Nat → Bool) (Pin freq Time_us : Nat) (volNum : Int)
    (volDen : Nat) (fuel : Nat) (s : ToneState) : Option ToneState :=
  if !IS_PIN Pin || freq == 0 || Time_us == 0 || decide (volNum < 0) then some s
  else
    let TimePoint := (micros s + Time_us) % 4294967296
    let dlyus := 500000 / freq
    let dlHigh := dlHigh_of dlyus volNum volDen
    let dlLow := dlLow_of dlyus dlHigh
    if freq == 0 then some s
    else
      match doWhile_micros Pin dlHigh dlLow TimePoint fuel s with
      | none => none
      | some s => some (digitalWrite_LOW Pin s)

/-- The variables of `Tone.cpp` at start-up, at time zero: `ToneTimer_Last` is null,
`ToneTimer` is `ToneTimer_Default` (declared outside the sources, a parameter), the
enabled flag is false. -/
def toneStart (ToneTimer_Default : Nat) : ToneState :=
  { ToneTimer_Last := 0,
    ToneTimer := ToneTimer_Default,
    IsToneEnable := false,
    tone_Pin := 0,
    tone_StopTimePoint := 0,
    elapsed_us := 0,
    log := [] }

/-- One full high/low cycle of a blocking tone, as effects. -/
def blockCycle (Pin dlHigh dlLow : Nat) : List ToneEffect :=
  [ToneEffect.digitalWrite_HIGH Pin, ToneEffect.delayMicroseconds dlHigh,
   ToneEffect.digitalWrite_LOW Pin, ToneEffect.delayMicroseconds dlLow]

/-- The bus clock command that `Timer_ClockCmd(TIMx, NewState)` issues for the
peripheral of each timer identity: `RCC_APB2PeriphClockCmd` for timers 1, 8, 9, 10, 11
and 15, `RCC_APB1PeriphClockCmd` for the others. -/
def clockCmdEffect (n : TIMER_Type) (NewState : Bool) : Effect :=
  match n with
  | TIMER1 | TIMER8 | TIMER9 | TIMER10 | TIMER11 | TIMER15 =>
    Effect.RCC_APB2PeriphClockCmd n NewState
  | _ => Effect.RCC_APB1PeriphClockCmd n NewState

/-- The effects of `n` full high/low cycles of a blocking tone. -/
def blockCycles (Pin dlHigh dlLow : Nat) : Nat → List ToneEffect
  | 0 => []
  | n + 1 => blockCycle Pin dlHigh dlLow ++ blockCycles Pin dlHigh dlLow n

/-- The number of passes of the loop of `toneBlock(Pin, freq, Time_ms)` entered at
`t0` elapsed microseconds: the deadline lies `1000 * (t0 / 1000 + Time_ms) - t0`
microseconds ahead and one pass lasts `2 * (500000 / freq)` microseconds; the
quotient is rounded up. -/
def blockPasses (freq Time_ms t0 : Nat) : Nat :=
  (1000 * (t0 / 1000 + Time_ms) - t0 + 2 * (500000 / freq) - 1) / (2 * (500000 / freq))

/-! ## Register math: properties of the frequency search -/

theorem int32_of_range (z : Int) (h1 : -2147483648 ≤ z) (h2 : z < 2147483648) : int32 z = z := by
  unfold int32; omega

theorem newerr_eq_deviation (P psc arr : Nat) (hP : P < 2 ^ 30) (hpsc : psc ≤ 32767)
    (harr : arr < 65535) : newerr P psc arr = (deviation P arr psc : Int) := by
  have hmul : arr * psc ≤ 65534 * 32767 := Nat.mul_le_mul (by omega) hpsc
  have hmul' : ((arr : Int) * (psc : Int)) = ((arr * psc : Nat) : Int) := by push_cast; rfl
  unfold newerr deviation CLOCK_ABS
  rw [hmul']
  generalize arr * psc = m at hmul
  have hP' : P < 1073741824 := by simpa using hP
  rw [int32_of_range _ (by omega) (by omega)]
  split
  · omega
  · rw [int32_of_range _ (by omega) (by omega)]; omega

theorem arrLoop_spec (P psc S : Nat) (hP : P < 2 ^ 30) (h2 : 2 ≤ psc) (hS : psc ≤ S)
    (hS' : S ≤ 32767) :
    ∀ (n arr : Nat) (st : Search), 65535 - arr = n → psc ≤ arr → SearchInv P S st →
      SearchInv P S (arrLoop P psc arr st) ∧
      (arrLoop P psc arr st).max_error ≤ st.max_error ∧
      ((arrLoop P psc arr st).success = false →
        ∀ a, arr ≤ a → a < 65535 → (arrLoop P psc arr st).max_error ≤ deviation P a psc) := by
  intro n
  induction n with
  | zero =>
    intro arr st hn _ hinv
    have : ¬ arr < 65535 := by omega
    rw [arrLoop]
    simp only [this, if_false]
    exact ⟨hinv, le_refl _, fun _ a h1 h2 => by omega⟩
  | succ n ih =>
    intro arr st hn hle hinv
    have harr : arr < 65535 := by omega
    have harr' : arr ≤ 65534 := by omega
    have he := newerr_eq_deviation P psc arr hP (by omega) harr
    rw [arrLoop]
    simp only [harr, if_true, he]
    by_cases hlt : (deviation P arr psc : Int) < (st.max_error : Int)
    · simp only [hlt, if_true]
      have hlt' : deviation P arr psc < st.max_error := by exact_mod_cast hlt
      have hm : ((deviation P arr psc : Int) % 65536).toNat = deviation P arr psc := by
        have := hinv.1
        omega
      rw [hm]
      by_cases hz : deviation P arr psc = 0
      · simp only [hz, if_true]
        refine ⟨⟨by simp, fun _ => rfl, fun _ => ⟨h2, hS, hle, harr', hz⟩⟩, by simp, ?_⟩
        intro h; simp at h
      · simp only [hz, if_false]
        have hinv' : SearchInv P S
            { max_error := deviation P arr psc, period := arr, prescaler := psc,
              success := false } := by
          refine ⟨?_, ?_, fun _ => ⟨h2, hS, hle, harr', rfl⟩⟩
          · have := hinv.1; show deviation P arr psc ≤ 65535; omega
          · intro h; simp at h
        obtain ⟨i1, i2, i3⟩ := ih (arr + 1) _ (by omega) (by omega) hinv'
        refine ⟨i1, le_trans i2 (le_of_lt hlt'), ?_⟩
        intro hs a ha1 ha2
        rcases Nat.eq_or_lt_of_le ha1 with h | h
        · subst h; exact i2
        · exact i3 hs a h ha2
    · simp only [hlt, if_false]
      have hge : st.max_error ≤ deviation P arr psc := by
        have : ¬ (deviation P arr psc < st.max_error) := by
          intro h; exact hlt (by exact_mod_cast h)
        omega
      obtain ⟨i1, i2, i3⟩ := ih (arr + 1) st (by omega) (by omega) hinv
      refine ⟨i1, i2, ?_⟩
      intro hs a ha1 ha2
      rcases Nat.eq_or_lt_of_le ha1 with h | h
      · subst h; exact le_trans i2 hge
      · exact i3 hs a h ha2


theorem pscLoop_spec (P S : Nat) (hP : P < 2 ^ 30) (hS' : S ≤ 32767) :
    ∀ (psc : Nat) (st : Search), psc ≤ S → SearchInv P S st →
      SearchInv P S (pscLoop P psc st) ∧
      (pscLoop P psc st).max_error ≤ st.max_error ∧
      ((pscLoop P psc st).success = false →
        ∀ p a, 2 ≤ p → p ≤ psc → p ≤ a → a < 65535 →
          (pscLoop P psc st).max_error ≤ deviation P a p) := by
  intro psc
  induction psc with
  | zero =>
    intro st _ hinv
    rw [pscLoop]
    simp only [show ¬ (0 > 1) by omega, if_false]
    exact ⟨hinv, le_refl _, fun _ p a h1 h2 => by omega⟩
  | succ k ih =>
    intro st hk hinv
    rw [pscLoop]
    by_cases hk1 : k + 1 > 1
    · simp only [hk1, if_true, Nat.add_sub_cancel]
      obtain ⟨a1, a2, a3⟩ :=
        arrLoop_spec P (k + 1) S hP (by omega) hk hS' _ (k + 1) st rfl (le_refl _) hinv
      by_cases hs : (arrLoop P (k + 1) (k + 1) st).success = true
      · simp only [hs, if_true]
        refine ⟨a1, a2, ?_⟩
        intro h; exact absurd h (by simp)
      · simp only [hs, if_false]
        have hs' : (arrLoop P (k + 1) (k + 1) st).success = false := by
          simpa using hs
        obtain ⟨b1, b2, b3⟩ := ih (arrLoop P (k + 1) (k + 1) st) (by omega) a1
        refine ⟨b1, le_trans b2 a2, ?_⟩
        intro hf p a hp2 hpk hpa ha
        rcases Nat.eq_or_lt_of_le hpk with h | h
        · subst h; exact le_trans b2 (a3 hs' a hpa ha)
        · exact b3 hf p a hp2 (by omega) hpa ha
    · simp only [hk1, if_false]
      exact ⟨hinv, le_refl _, fun _ p a h1 h2 => by omega⟩

theorem deviation_sqrt_succ (P : Nat) :
    deviation P (Nat.sqrt P + 1) (Nat.sqrt P) ≤ Nat.sqrt P := by
  have h1 : Nat.sqrt P * Nat.sqrt P ≤ P := Nat.sqrt_le P
  have h2 : P < (Nat.sqrt P + 1) * (Nat.sqrt P + 1) := Nat.lt_succ_sqrt P
  unfold deviation
  generalize Nat.sqrt P = s at h1 h2
  have e1 : ((s + 1 : Nat) : Int) * (s : Int) = ((s * s : Nat) : Int) + s := by
    push_cast; ring
  have e2 : (s + 1) * (s + 1) = s * s + 2 * s + 1 := by ring
  rw [e2] at h2
  rw [e1]
  generalize s * s = q at h1 h2
  omega

/-- The search of `Timer_FreqToArrPsc` on a target `P = clock / freq` with
`4 ≤ P < 2^30`: a pair of the search domain is stored, and its deviation from `P`
is minimal over the search domain. -/
theorem search_result_minimal (freq clock p0 q0 : Nat) (hf : 0 < freq)
    (hfc : freq ≤ clock) (h4 : 4 ≤ clock / freq) (hP : clock / freq < 2 ^ 30) :
    ∃ r, Timer_FreqToArrPsc freq clock p0 q0 = some r ∧
      2 ≤ r.prescaler ∧ r.prescaler ≤ Nat.sqrt (clock / freq) ∧
      r.prescaler ≤ r.period ∧ r.period ≤ 65534 ∧
      r.ret = int32 ((freq : Int) - ((clock / (r.period * r.prescaler) : Nat) : Int)) ∧
      ∀ a p, 2 ≤ p → p ≤ Nat.sqrt (clock / freq) → p ≤ a → a ≤ 65534 →
        deviation (clock / freq) r.period r.prescaler ≤ deviation (clock / freq) a p := by
  have hs2 : 2 ≤ Nat.sqrt (clock / freq) := Nat.le_sqrt.mpr (by omega)
  have hs : Nat.sqrt (clock / freq) < 32768 := Nat.sqrt_lt.mpr (by
    have : (32768 : Nat) * 32768 = 2 ^ 30 := by norm_num
    omega)
  have hinv0 : SearchInv (clock / freq) (Nat.sqrt (clock / freq))
      { max_error := 0xFFFF, period := p0, prescaler := q0, success := false } := by
    refine ⟨le_refl _, ?_, ?_⟩
    · intro h; simp at h
    · intro h; simp at h
  obtain ⟨i1, i2, i3⟩ := pscLoop_spec (clock / freq) (Nat.sqrt (clock / freq)) hP (by omega)
    (Nat.sqrt (clock / freq)) _ (le_refl _) hinv0
  have hdev := deviation_sqrt_succ (clock / freq)
  generalize hst : pscLoop (clock / freq) (Nat.sqrt (clock / freq))
    { max_error := 0xFFFF, period := p0, prescaler := q0, success := false } = st at i1 i2 i3
  -- every pair of the domain is at least `max_error` away
  have hall : ∀ a p, 2 ≤ p → p ≤ Nat.sqrt (clock / freq) → p ≤ a → a ≤ 65534 →
      st.max_error ≤ deviation (clock / freq) a p := by
    intro a p hp2 hps hpa ha
    cases hsucc : st.success with
    | true => rw [i1.2.1 hsucc]; exact Nat.zero_le _
    | false => exact i3 hsucc p a hp2 hps hpa (by omega)
  have hwritten : st.max_error < 65535 := by
    have := hall (Nat.sqrt (clock / freq) + 1) (Nat.sqrt (clock / freq)) hs2 (le_refl _)
      (by omega) (by omega)
    omega
  obtain ⟨w1, w2, w3, w4, w5⟩ := i1.2.2 hwritten
  have hprod1 : 2 * 2 ≤ st.period * st.prescaler := Nat.mul_le_mul (by omega) w1
  have hprod2 : st.period * st.prescaler ≤ 65534 * 32767 := Nat.mul_le_mul w4 (by omega)
  have hmod : st.period * st.prescaler % 4294967296 = st.period * st.prescaler := by
    apply Nat.mod_eq_of_lt; omega
  have hne : ¬ (freq = 0 ∨ freq > clock) := by omega
  refine ⟨{ ret := int32 ((freq : Int) - ((clock / (st.period * st.prescaler) : Nat) : Int)),
            period := st.period, prescaler := st.prescaler }, ?_, w1, w2, w3, w4, rfl, ?_⟩
  · unfold Timer_FreqToArrPsc
    simp only [hne, if_false, hst, hmod]
    rw [if_neg (by omega)]
  · intro a p hp2 hps hpa ha
    show deviation (clock / freq) st.period st.prescaler ≤ _
    rw [w5]; exact hall a p hp2 hps hpa ha


theorem arrLoop_no_improve (P psc : Nat) :
    ∀ (n arr : Nat) (st : Search), 65535 - arr = n →
      (∀ a, arr ≤ a → a < 65535 → ¬ (newerr P psc a < (st.max_error : Int))) →
      arrLoop P psc arr st = st := by
  intro n
  induction n with
  | zero =>
    intro arr st hn _
    rw [arrLoop]
    simp only [show ¬ arr < 65535 by omega, if_false]
  | succ n ih =>
    intro arr st hn h
    rw [arrLoop]
    have harr : arr < 65535 := by omega
    simp only [harr, if_true, h arr (le_refl _) harr, if_false]
    exact ih (arr + 1) st (by omega) (fun a ha1 ha2 => h a (by omega) ha2)

theorem newerr_7_2 (a : Nat) (h4 : 4 ≤ a) (ha : a < 65535) : newerr 7 2 a = 2 * (a : Int) - 7 := by
  unfold newerr CLOCK_ABS
  rw [int32_of_range _ (by omega) (by omega)]
  push_cast
  rw [if_pos (by omega)]
  ring

theorem arrLoop_7 :
    arrLoop 7 2 2 { max_error := 0xFFFF, period := 0, prescaler := 0, success := false }
      = { max_error := 1, period := 3, prescaler := 2, success := false } := by
  have e2 : newerr 7 2 2 = 3 := by decide
  have e3 : newerr 7 2 3 = 1 := by decide
  rw [arrLoop]
  simp only [e2]
  norm_num
  rw [arrLoop]
  simp only [e3]
  norm_num
  apply arrLoop_no_improve 7 2 _ 4 _ rfl
  intro a h1 h2
  rw [newerr_7_2 a h1 h2]
  simp only [Nat.cast_one]
  omega

theorem Timer_FreqToArrPsc_1_7 :
    Timer_FreqToArrPsc 1 7 0 0 = some { ret := 0, period := 3, prescaler := 2 } := by
  have hs : Nat.sqrt 7 = 2 := (Nat.eq_sqrt.mpr (by decide)).symm
  unfold Timer_FreqToArrPsc
  simp only [Nat.div_one, hs]
  rw [pscLoop]
  simp only [arrLoop_7]
  rw [pscLoop]
  decide

theorem Timer_FreqToArrPsc_23_100 :
    Timer_FreqToArrPsc 23 100 0 0 = some { ret := -2, period := 2, prescaler := 2 } := by
  have hd : 100 / 23 = 4 := by decide
  have hs : Nat.sqrt 4 = 2 := (Nat.eq_sqrt.mpr (by decide)).symm
  have e2 : newerr 4 2 2 = 0 := by decide
  unfold Timer_FreqToArrPsc
  simp only [hd, hs]
  rw [pscLoop, arrLoop]
  simp only [e2]
  decide

/-! ## Register math: specification properties -/

/-- C1 (counterexample). For `clock = 7`, `freq = 1` the target product is the prime `7`:
the routine stores `period = 3`, `prescaler = 2` (deviation 1), while the pair
`a = 7`, `b = 1` of `[1, 65535]` has deviation 0, so the result is not the
brute-force optimum. -/
theorem Timer_FreqToArrPsc_misses_brute_force :
    (0 < 1 ∧ 1 ≤ 7) ∧
    ∃ r, Timer_FreqToArrPsc 1 7 0 0 = some r ∧ r.period = 3 ∧ r.prescaler = 2 ∧
      ¬ (∀ a b : Nat, 1 ≤ a → a ≤ 65535 → 1 ≤ b → b ≤ 65535 →
          |((r.period * r.prescaler : Nat) : Int) - ((7 / 1 : Nat) : Int)|
            ≤ |((a * b : Nat) : Int) - ((7 / 1 : Nat) : Int)|) := by
  refine ⟨by decide, _, Timer_FreqToArrPsc_1_7, rfl, rfl, ?_⟩
  intro h
  have := h 7 1 (by decide) (by decide) (by decide) (by decide)
  revert this
  decide

/-- C1 (amended). For `0 < freq ≤ clock` with `4 ≤ clock / freq < 2^30`,
`Timer_FreqToArrPsc` stores a period and a prescaler, both in `[1, 65535]` and more
precisely in its search domain `2 ≤ prescaler ≤ ⌊√(clock / freq)⌋`,
`prescaler ≤ period ≤ 65534`, and `|period * prescaler - clock / freq|` is at most
`|a * b - clock / freq|` for every pair `(a, b)` of that search domain. -/
theorem Timer_FreqToArrPsc_search_domain_minimum (freq clock p0 q0 : Nat) (hf : 0 < freq)
    (hfc : freq ≤ clock) (h4 : 4 ≤ clock / freq) (hP : clock / freq < 2 ^ 30) :
    ∃ r, Timer_FreqToArrPsc freq clock p0 q0 = some r ∧
      (1 ≤ r.period ∧ r.period ≤ 65535) ∧ (1 ≤ r.prescaler ∧ r.prescaler ≤ 65535) ∧
      (2 ≤ r.prescaler ∧ r.prescaler ≤ Nat.sqrt (clock / freq) ∧
        r.prescaler ≤ r.period ∧ r.period ≤ 65534) ∧
      ∀ a b : Nat, 2 ≤ b → b ≤ Nat.sqrt (clock / freq) → b ≤ a → a ≤ 65534 →
        |((r.period * r.prescaler : Nat) : Int) - ((clock / freq : Nat) : Int)|
          ≤ |((a * b : Nat) : Int) - ((clock / freq : Nat) : Int)| := by
  obtain ⟨r, hr, h1, h2, h3, h4', _, hmin⟩ :=
    search_result_minimal freq clock p0 q0 hf hfc h4 hP
  have hs : Nat.sqrt (clock / freq) < 32768 := Nat.sqrt_lt.mpr (by
    have : (32768 : Nat) * 32768 = 2 ^ 30 := by norm_num
    omega)
  refine ⟨r, hr, ⟨by omega, by omega⟩, ⟨by omega, by omega⟩, ⟨h1, h2, h3, h4'⟩, ?_⟩
  intro a b hb2 hbs hba ha
  have := hmin a b hb2 hbs hba ha
  unfold deviation at this
  rw [Nat.cast_mul, Nat.cast_mul, Int.abs_eq_natAbs, Int.abs_eq_natAbs]
  exact Int.ofNat_le.mpr this

/-- C1 (witness of the amended statement) at `clock = 1000`, `freq = 10`. -/
theorem Timer_FreqToArrPsc_search_domain_minimum_witness :
    (0 < 10 ∧ 10 ≤ 1000 ∧ 4 ≤ 1000 / 10 ∧ 1000 / 10 < 2 ^ 30) ∧
    ∃ r, Timer_FreqToArrPsc 10 1000 0 0 = some r ∧
      (1 ≤ r.period ∧ r.period ≤ 65535) ∧ (1 ≤ r.prescaler ∧ r.prescaler ≤ 65535) ∧
      (2 ≤ r.prescaler ∧ r.prescaler ≤ Nat.sqrt (1000 / 10) ∧
        r.prescaler ≤ r.period ∧ r.period ≤ 65534) ∧
      ∀ a b : Nat, 2 ≤ b → b ≤ Nat.sqrt (1000 / 10) → b ≤ a → a ≤ 65534 →
        |((r.period * r.prescaler : Nat) : Int) - ((1000 / 10 : Nat) : Int)|
          ≤ |((a * b : Nat) : Int) - ((1000 / 10 : Nat) : Int)| :=
  ⟨by decide,
    Timer_FreqToArrPsc_search_domain_minimum 10 1000 0 0 (by decide) (by decide) (by decide)
      (by decide)⟩

/-- C2. When `freq == 0` or `freq > clock`, `Timer_FreqToArrPsc` returns the sentinel
`freq - clock`, the 32-bit wrap-around difference read as a signed 32-bit integer
(it is `1` for `freq = clock + 1`), and `*period` and `*prescaler` keep the contents
they had before the call. -/
theorem Timer_FreqToArrPsc_unreachable (freq clock p0 q0 : Nat)
    (h : freq = 0 ∨ freq > clock) :
    ∃ r, Timer_FreqToArrPsc freq clock p0 q0 = some r ∧
      r.period = p0 ∧ r.prescaler = q0 ∧
      (-2147483648 ≤ r.ret ∧ r.ret < 2147483648 ∧
        (r.ret - ((freq : Int) - (clock : Int))) % 4294967296 = 0) ∧
      (freq = clock + 1 → r.ret = 1) := by
  refine ⟨{ ret := int32 ((freq : Int) - (clock : Int)), period := p0, prescaler := q0 },
    ?_, rfl, rfl, ?_, ?_⟩
  · unfold Timer_FreqToArrPsc
    rw [if_pos h]
  · show -2147483648 ≤ int32 _ ∧ int32 _ < 2147483648 ∧ (int32 _ - _) % 4294967296 = 0
    unfold int32
    omega
  · intro he
    show int32 _ = 1
    unfold int32
    omega

/-- C2 (witness) at `freq = 8`, `clock = 7`: the sentinel is `1` and the
out-parameters keep `5` and `6`. -/
theorem Timer_FreqToArrPsc_unreachable_witness :
    (8 = 0 ∨ 8 > 7) ∧
    ∃ r, Timer_FreqToArrPsc 8 7 5 6 = some r ∧
      r.period = 5 ∧ r.prescaler = 6 ∧
      (-2147483648 ≤ r.ret ∧ r.ret < 2147483648 ∧
        (r.ret - (((8 : Nat) : Int) - ((7 : Nat) : Int))) % 4294967296 = 0) ∧
      (8 = 7 + 1 → r.ret = 1) :=
  ⟨by decide, Timer_FreqToArrPsc_unreachable 8 7 5 6 (Or.inr (by decide))⟩

/-- C3 (counterexample). For `clock = 100`, `freq = 23` the search ends on the exact
match `2 * 2 = 100 / 23`, yet the value returned is `23 - 100 / 4 = -2`, not `0`. -/
theorem Timer_FreqToArrPsc_exact_match_nonzero_residual :
    (0 < 23 ∧ 23 ≤ 100) ∧
    ∃ r, Timer_FreqToArrPsc 23 100 0 0 = some r ∧
      r.period * r.prescaler = 100 / 23 ∧ r.ret = -2 ∧ r.ret ≠ 0 :=
  ⟨by decide, _, Timer_FreqToArrPsc_23_100, by decide, rfl, by decide⟩

/-- C3 (amended). For `0 < freq ≤ clock < 2^32`, whenever the search of
`Timer_FreqToArrPsc` ends on a pair with `period * prescaler = clock / freq`, the
call returns, the value returned is `freq - clock / (clock / freq)`, which is never
positive, and it is `0` when `freq` divides `clock`. -/
theorem Timer_FreqToArrPsc_exact_match_residual (freq clock p0 q0 : Nat) (hf : 0 < freq)
    (hfc : freq ≤ clock) (hc : clock < 2 ^ 32)
    (hexact :
      (pscLoop (clock / freq) (Nat.sqrt (clock / freq))
        { max_error := 0xFFFF, period := p0, prescaler := q0, success := false }).period *
      (pscLoop (clock / freq) (Nat.sqrt (clock / freq))
        { max_error := 0xFFFF, period := p0, prescaler := q0, success := false }).prescaler
        = clock / freq) :
    ∃ r, Timer_FreqToArrPsc freq clock p0 q0 = some r ∧
      r.period * r.prescaler = clock / freq ∧
      r.ret = (freq : Int) - ((clock / (clock / freq) : Nat) : Int) ∧
      r.ret ≤ 0 ∧ (freq ∣ clock → r.ret = 0) := by
  have hc' : clock < 4294967296 := by simpa using hc
  have hP1 : 1 ≤ clock / freq := (Nat.one_le_div_iff hf).mpr hfc
  have hPle : clock / freq ≤ clock := Nat.div_le_self _ _
  have hmul : clock / freq * freq ≤ clock := Nat.div_mul_le_self clock freq
  have hq : freq ≤ clock / (clock / freq) := by
    rw [Nat.le_div_iff_mul_le (by omega)]
    rw [Nat.mul_comm]; exact hmul
  have hq2 : clock / (clock / freq) ≤ clock := Nat.div_le_self _ _
  have hbound : clock / (clock / freq) - freq < 2147483648 := by
    rcases Nat.lt_or_ge (clock / freq) 2 with h1 | h2
    · have hone : clock / freq = 1 := by omega
      have : clock < 2 * freq := by
        have := Nat.lt_succ_iff.mpr (le_of_eq hone)
        have h3 := (Nat.div_lt_iff_lt_mul hf).mp this
        omega
      rw [hone, Nat.div_one]; omega
    · have : clock / (clock / freq) ≤ clock / 2 := Nat.div_le_div_left h2 (by omega)
      omega
  have hne : ¬ (freq = 0 ∨ freq > clock) := by omega
  have hmod : clock / freq % 4294967296 = clock / freq := Nat.mod_eq_of_lt (by omega)
  have hret : int32 ((freq : Int) - ((clock / (clock / freq) : Nat) : Int))
      = (freq : Int) - ((clock / (clock / freq) : Nat) : Int) :=
    int32_of_range _ (by omega) (by omega)
  refine ⟨{ ret := int32 ((freq : Int) - ((clock / (clock / freq) : Nat) : Int)),
            period := _, prescaler := _ }, ?_, hexact, hret, ?_, ?_⟩
  · unfold Timer_FreqToArrPsc
    simp only [hne, if_false, hexact, hmod]
    rw [if_neg (by omega)]
  · show int32 _ ≤ 0
    rw [hret]; omega
  · intro hdvd
    show int32 _ = 0
    rw [hret]
    obtain ⟨k, hk⟩ := hdvd
    have hkpos : 0 < k := by
      rcases Nat.eq_zero_or_pos k with h0 | h0
      · subst h0; omega
      · exact h0
    have e1 : clock / freq = k := by rw [hk]; exact Nat.mul_div_cancel_left k hf
    have e2 : clock / k = freq := by rw [hk]; exact Nat.mul_div_cancel freq hkpos
    rw [e1, e2]; omega

/-- C3 (witness of the amended statement) at `clock = 100`, `freq = 25`: the exact
match `2 * 2 = 100 / 25` is found and the residual is `0`. -/
theorem Timer_FreqToArrPsc_exact_match_residual_witness :
    (0 < 25 ∧ 25 ≤ 100 ∧ 100 < 2 ^ 32) ∧
    ∃ r, Timer_FreqToArrPsc 25 100 0 0 = some r ∧
      r.period * r.prescaler = 100 / 25 ∧
      r.ret = ((25 : Nat) : Int) - ((100 / (100 / 25) : Nat) : Int) ∧
      r.ret ≤ 0 ∧ (25 ∣ 100 → r.ret = 0) :=
  ⟨by decide,
    Timer_FreqToArrPsc_exact_match_residual 25 100 0 0 (by decide) (by decide) (by decide)
      (by
        have hd : 100 / 25 = 4 := by decide
        have hs : Nat.sqrt 4 = 2 := (Nat.eq_sqrt.mpr (by decide)).symm
        have e2 : newerr 4 2 2 = 0 := by decide
        rw [hd, hs, pscLoop, arrLoop]
        simp only [e2]
        decide)⟩

/-- C4. `Timer_TimeToArrPsc` is a function of `(time, clock)` alone: equal inputs give
equal outputs; and with `cyclesPerMicro = clock / 1000000` and the 32-bit
`product = time * cyclesPerMicro`, every input with `product < 30 * cyclesPerMicro`
yields `period = 10` and `prescaler = product / 10`. -/
theorem Timer_TimeToArrPsc_short_period (time clock : Nat) (hc : clock < 2 ^ 32) :
    (∀ time' clock' : Nat, time' = time → clock' = clock →
      Timer_TimeToArrPsc time' clock' = Timer_TimeToArrPsc time clock) ∧
    (time * (clock / 1000000) % 4294967296 < 30 * (clock / 1000000) →
      Timer_TimeToArrPsc time clock =
        some { period := 10, prescaler := time * (clock / 1000000) % 4294967296 / 10 }) := by
  refine ⟨fun t c ht hc' => by rw [ht, hc'], ?_⟩
  intro hlt
  have hc' : clock < 4294967296 := by simpa using hc
  have hcpm : clock / 1000000 ≤ 4294 := by omega
  unfold Timer_TimeToArrPsc
  simp only
  generalize time * (clock / 1000000) % 4294967296 = product at hlt ⊢
  have h30 : clock / 1000000 * 30 % 4294967296 = clock / 1000000 * 30 :=
    Nat.mod_eq_of_lt (by omega)
  rw [h30, if_pos (by omega)]
  have : product / 10 % 65536 = product / 10 := Nat.mod_eq_of_lt (by omega)
  rw [this]

/-- C4 (witness) at `time = 10`, `clock = 100000000`: the product `1000` is below
`30 * 100`, the outputs are `period = 10`, `prescaler = 100`. -/
theorem Timer_TimeToArrPsc_short_period_witness :
    100000000 < 2 ^ 32 ∧
    (∀ time' clock' : Nat, time' = 10 → clock' = 100000000 →
      Timer_TimeToArrPsc time' clock' = Timer_TimeToArrPsc 10 100000000) ∧
    (10 * (100000000 / 1000000) % 4294967296 < 30 * (100000000 / 1000000) →
      Timer_TimeToArrPsc 10 100000000 =
        some { period := 10, prescaler := 10 * (100000000 / 1000000) % 4294967296 / 10 }) :=
  ⟨by decide, Timer_TimeToArrPsc_short_period 10 100000000 (by decide)⟩

/-- C5 (counterexample). For `time = 13107400`, `clock = 100000000` the product is
`1310740000 ≥ 65535000` and `product / 20000 = 65537`, but the stored 16-bit period
is `1` (and the prescaler `20000`, not `product / 1`). -/
theorem Timer_TimeToArrPsc_long_period_truncates :
    65535000 ≤ 13107400 * (100000000 / 1000000) % 4294967296 ∧
    ∃ r, Timer_TimeToArrPsc 13107400 100000000 = some r ∧
      r.period = 1 ∧ r.prescaler = 20000 ∧
      ¬ (r.period = 13107400 * (100000000 / 1000000) % 4294967296 / 20000 ∧
         r.prescaler = 13107400 * (100000000 / 1000000) % 4294967296 / r.period) := by
  refine ⟨by decide, { period := 1, prescaler := 20000 }, by decide, rfl, rfl, by decide⟩

/-- C5 (amended). With `cyclesPerMicro = clock / 1000000` and the 32-bit
`product = time * cyclesPerMicro`: if `30 * cyclesPerMicro ≤ product < 65535000` and
`product ≥ 1000` the outputs are `period = product / 1000` and
`prescaler = product / period`; if `65535000 ≤ product < 1310720000` they are
`period = product / 20000` and `prescaler = product / period`; and for every
`product ≥ 65535000` the stored period is `product / 20000` reduced modulo `65536`
and, when that is not zero, the stored prescaler is `product / period` reduced
modulo `65536`. -/
theorem Timer_TimeToArrPsc_buckets (time clock : Nat) (hc : clock < 2 ^ 32) :
    (30 * (clock / 1000000) ≤ time * (clock / 1000000) % 4294967296 →
      time * (clock / 1000000) % 4294967296 < 65535000 →
      1000 ≤ time * (clock / 1000000) % 4294967296 →
      Timer_TimeToArrPsc time clock =
        some { period := time * (clock / 1000000) % 4294967296 / 1000,
               prescaler := time * (clock / 1000000) % 4294967296 /
                 (time * (clock / 1000000) % 4294967296 / 1000) }) ∧
    (65535000 ≤ time * (clock / 1000000) % 4294967296 →
      time * (clock / 1000000) % 4294967296 < 1310720000 →
      Timer_TimeToArrPsc time clock =
        some { period := time * (clock / 1000000) % 4294967296 / 20000,
               prescaler := time * (clock / 1000000) % 4294967296 /
                 (time * (clock / 1000000) % 4294967296 / 20000) }) ∧
    (65535000 ≤ time * (clock / 1000000) % 4294967296 →
      time * (clock / 1000000) % 4294967296 / 20000 % 65536 ≠ 0 →
      Timer_TimeToArrPsc time clock =
        some { period := time * (clock / 1000000) % 4294967296 / 20000 % 65536,
               prescaler := time * (clock / 1000000) % 4294967296 /
                 (time * (clock / 1000000) % 4294967296 / 20000 % 65536) % 65536 }) := by
  have hc' : clock < 4294967296 := by simpa using hc
  have hcpm : clock / 1000000 ≤ 4294 := by omega
  have h30 : clock / 1000000 * 30 % 4294967296 = clock / 1000000 * 30 :=
    Nat.mod_eq_of_lt (by omega)
  unfold Timer_TimeToArrPsc
  simp only [h30]
  generalize time * (clock / 1000000) % 4294967296 = product
  refine ⟨?_, ?_, ?_⟩
  · intro h1 h2 h3
    have harr : product / 1000 % 65536 = product / 1000 := Nat.mod_eq_of_lt (by omega)
    have hpos : 0 < product / 1000 := by omega
    have hpsc : product / (product / 1000) < 65536 := by
      rw [Nat.div_lt_iff_lt_mul hpos]; omega
    rw [if_neg (by omega), if_pos (by omega), harr, if_neg (by omega),
      Nat.mod_eq_of_lt hpsc]
  · intro h1 h2
    have harr : product / 20000 % 65536 = product / 20000 := Nat.mod_eq_of_lt (by omega)
    have hpos : 0 < product / 20000 := by omega
    have hpsc : product / (product / 20000) < 65536 := by
      rw [Nat.div_lt_iff_lt_mul hpos]; omega
    rw [if_neg (by omega), if_neg (by omega), harr, if_neg (by omega),
      Nat.mod_eq_of_lt hpsc]
  · intro h1 h2
    rw [if_neg (by omega), if_neg (by omega), if_neg h2]

/-- C5 (witness of the amended statement) at `time = 500`, `clock = 100000000`
(product `50000`). -/
theorem Timer_TimeToArrPsc_buckets_witness :
    100000000 < 2 ^ 32 ∧
    (30 * (100000000 / 1000000) ≤ 500 * (100000000 / 1000000) % 4294967296 ∧
      500 * (100000000 / 1000000) % 4294967296 < 65535000 ∧
      1000 ≤ 500 * (100000000 / 1000000) % 4294967296) ∧
    Timer_TimeToArrPsc 500 100000000 =
        some { period := 500 * (100000000 / 1000000) % 4294967296 / 1000,
               prescaler := 500 * (100000000 / 1000000) % 4294967296 /
                 (500 * (100000000 / 1000000) % 4294967296 / 1000) } :=
  ⟨by decide, by decide,
    (Timer_TimeToArrPsc_buckets 500 100000000 (by decide)).1 (by decide) (by decide)
      (by decide)⟩

/-- C6 (counterexample). For `time = 13107200`, `clock = 100000000` (a 200 MHz part)
the product is `1310720000 ≥ 65535000`, so `arr` is `1310720000 / 20000 = 65536`
stored in 16 bits, which is `0`, and `psc = prodect / arr` divides by zero: no pair is
produced. The same happens in the middle branch for `time = 30`, `clock = 1000000`,
where `arr = 30 / 1000 = 0`. -/
theorem Timer_TimeToArrPsc_divides_by_zero :
    (65535000 ≤ 13107200 * (100000000 / 1000000) % 4294967296 ∧
      13107200 * (100000000 / 1000000) % 4294967296 / 20000 % 65536 = 0 ∧
      Timer_TimeToArrPsc 13107200 100000000 = none) ∧
    (30 * (1000000 / 1000000) % 4294967296 / 1000 % 65536 = 0 ∧
      Timer_TimeToArrPsc 30 1000000 = none) := by
  decide

/-- C6 (amended). For `clock < 2^32`, `Timer_TimeToArrPsc` completes with a pair,
that is the divisor `arr` is non-zero, exactly when `product < 30 * cyclesPerMicro`,
or `1000 ≤ product < 65535000`, or `product ≥ 65535000` and `product / 20000` is not
a multiple of `65536`; in particular it completes for every `clock ≥ 34000000` and
every `time` with `product < 1310720000`. -/
theorem Timer_TimeToArrPsc_completes_iff (time clock : Nat) (hc : clock < 2 ^ 32) :
    ((∃ r, Timer_TimeToArrPsc time clock = some r) ↔
      (time * (clock / 1000000) % 4294967296 < 30 * (clock / 1000000) ∨
       (1000 ≤ time * (clock / 1000000) % 4294967296 ∧
          time * (clock / 1000000) % 4294967296 < 65535000) ∨
       (65535000 ≤ time * (clock / 1000000) % 4294967296 ∧
          time * (clock / 1000000) % 4294967296 / 20000 % 65536 ≠ 0))) ∧
    (34000000 ≤ clock → time * (clock / 1000000) % 4294967296 < 1310720000 →
      ∃ r, Timer_TimeToArrPsc time clock = some r) := by
  have hc' : clock < 4294967296 := by simpa using hc
  have hcpm : clock / 1000000 ≤ 4294 := by omega
  have h30 : clock / 1000000 * 30 % 4294967296 = clock / 1000000 * 30 :=
    Nat.mod_eq_of_lt (by omega)
  have key : (∃ r, Timer_TimeToArrPsc time clock = some r) ↔
      (time * (clock / 1000000) % 4294967296 < 30 * (clock / 1000000) ∨
       (1000 ≤ time * (clock / 1000000) % 4294967296 ∧
          time * (clock / 1000000) % 4294967296 < 65535000) ∨
       (65535000 ≤ time * (clock / 1000000) % 4294967296 ∧
          time * (clock / 1000000) % 4294967296 / 20000 % 65536 ≠ 0)) := by
    unfold Timer_TimeToArrPsc
    simp only [h30]
    generalize time * (clock / 1000000) % 4294967296 = product
    by_cases c1 : product < clock / 1000000 * 30
    · rw [if_pos c1]
      exact ⟨fun _ => Or.inl (by omega), fun _ => ⟨_, rfl⟩⟩
    · rw [if_neg c1]
      by_cases c2 : product < 65535 * 1000
      · rw [if_pos c2]
        by_cases c3 : product / 1000 % 65536 = 0
        · rw [if_pos c3]
          constructor
          · rintro ⟨r, hr⟩; exact absurd hr (by simp)
          · intro h; exfalso; omega
        · rw [if_neg c3]
          exact ⟨fun _ => Or.inr (Or.inl (by omega)), fun _ => ⟨_, rfl⟩⟩
      · rw [if_neg c2]
        by_cases c3 : product / 20000 % 65536 = 0
        · rw [if_pos c3]
          constructor
          · rintro ⟨r, hr⟩; exact absurd hr (by simp)
          · intro h; exfalso; omega
        · rw [if_neg c3]
          exact ⟨fun _ => Or.inr (Or.inr ⟨by omega, c3⟩), fun _ => ⟨_, rfl⟩⟩
  refine ⟨key, ?_⟩
  intro h34 hprod
  apply key.mpr
  have hcpm34 : 34 ≤ clock / 1000000 := by omega
  generalize time * (clock / 1000000) % 4294967296 = product at hprod ⊢
  omega

/-- C6 (witness of the amended statement) at `time = 500`, `clock = 100000000`. -/
theorem Timer_TimeToArrPsc_completes_iff_witness :
    (100000000 < 2 ^ 32 ∧ 34000000 ≤ 100000000 ∧
      500 * (100000000 / 1000000) % 4294967296 < 1310720000) ∧
    ∃ r, Timer_TimeToArrPsc 500 100000000 = some r :=
  ⟨by decide,
    (Timer_TimeToArrPsc_completes_iff 500 100000000 (by decide)).2 (by decide) (by decide)⟩

/-! ## Timer control and interrupt dispatch: specification properties -/

theorem TMRx_IRQ_DEF_all_TIM (dev : Device) (T : TIMER_Type) :
    TMRx_IRQ_DEF_all dev (TIM T) = some (T, dev.irqNumber (irqLine T) % 256) := by
  cases T <;> simp [TMRx_IRQ_DEF_all, TMRx_IRQ_DEF, irqLine]

theorem Timer_ClockCmd_TIMx_Function (TIMx : TIM_TypeDef) (b : Bool) (s : State) :
    (Timer_ClockCmd TIMx b s).TIMx_Function = s.TIMx_Function := by
  cases TIMx with
  | TIM n => cases n <;> rfl
  | other addr => rfl

theorem Timer_SetInterruptBase_TIMx_Function (dev : Device) (T : TIMER_Type)
    (period prescaler : Nat) (f : Timer_CallbackFunction_t) (pp sp : Nat) (s : State)
    (hirq : dev.irqNumber (irqLine T) % 256 ≠ 0) :
    (Timer_SetInterruptBase dev (TIM T) period prescaler f pp sp s).TIMx_Function
      = Function.update s.TIMx_Function T f := by
  unfold Timer_SetInterruptBase
  simp only [IS_TMR_ALL_PERIPH, Bool.not_true, Bool.false_eq_true, if_false,
    TMRx_IRQ_DEF_all_TIM, hirq]
  simp only [TMR_INTConfig, TMR_ClearFlag, NVIC_Init, TMR_TimeBaseInit,
    Timer_ClockCmd_TIMx_Function, TMR_Reset]

theorem Timer_SetInterruptBase_other (dev : Device) (addr : Nat)
    (period prescaler : Nat) (f : Timer_CallbackFunction_t) (pp sp : Nat) (s : State) :
    Timer_SetInterruptBase dev (other addr) period prescaler f pp sp s = s := by
  unfold Timer_SetInterruptBase
  simp [IS_TMR_ALL_PERIPH]

theorem TMRx_IRQHANDLER_log (n : TIMER_Type) (s : State) :
    (TMRx_IRQHANDLER n s).log = s.log ++ dispatchSpec n s := by
  unfold TMRx_IRQHANDLER dispatchSpec TMR_GetINTStatus TMR_ClearITPendingBit
  by_cases hp : s.pending n = true
  · by_cases hf : s.TIMx_Function n = 0
    · simp [hp, hf]
    · simp [hp, hf]
  · simp [hp]

theorem TMRx_IRQHANDLER_TIMx_Function (n : TIMER_Type) (s : State) :
    (TMRx_IRQHANDLER n s).TIMx_Function = s.TIMx_Function := by
  unfold TMRx_IRQHANDLER TMR_GetINTStatus TMR_ClearITPendingBit
  by_cases hp : s.pending n = true
  · by_cases hf : s.TIMx_Function n = 0
    · simp [hp, hf]
    · simp [hp, hf]
  · simp [hp]

theorem TMRx_IRQHANDLER_pending (n : TIMER_Type) (s : State) :
    (TMRx_IRQHANDLER n s).pending = Function.update s.pending n false := by
  unfold TMRx_IRQHANDLER TMR_GetINTStatus TMR_ClearITPendingBit
  by_cases hp : s.pending n = true
  · by_cases hf : s.TIMx_Function n = 0
    · simp [hp, hf]
    · simp [hp, hf]
  · have hp' : s.pending n = false := by simpa using hp
    rw [if_neg hp]
    funext m
    by_cases hm : m = n
    · subst hm; rw [Function.update_same, hp']
    · rw [Function.update_noteq hm]

/-- C7. Callback slot table, last write wins, with frame. For a supported timer `T`
(its interrupt line has a non-zero channel number): after
`Timer_SetInterruptBase(T, .., A, ..)` slot `T` holds `A`, after a following
`Timer_SetInterruptBase(T, .., B, ..)` it holds `B`, and a later dispatch for `T`
with the overflow flag pending invokes `B` and no other callback; the slot of every
other timer identity is unchanged by both calls; a call with an unsupported timer
address changes nothing, so the whole table is unchanged. -/
theorem Timer_SetInterruptBase_last_write_wins (dev : Device) (T : TIMER_Type)
    (A B : Timer_CallbackFunction_t) (p1 q1 pp1 sp1 p2 q2 pp2 sp2 : Nat) (s : State)
    (hirq : dev.irqNumber (irqLine T) % 256 ≠ 0) :
    (Timer_SetInterruptBase dev (TIM T) p1 q1 A pp1 sp1 s).TIMx_Function T = A ∧
    (Timer_SetInterruptBase dev (TIM T) p2 q2 B pp2 sp2
      (Timer_SetInterruptBase dev (TIM T) p1 q1 A pp1 sp1 s)).TIMx_Function T = B ∧
    (∀ s3 : State,
      s3.TIMx_Function = (Timer_SetInterruptBase dev (TIM T) p2 q2 B pp2 sp2
        (Timer_SetInterruptBase dev (TIM T) p1 q1 A pp1 sp1 s)).TIMx_Function →
      s3.pending T = true →
      (TMRx_IRQHANDLER T s3).log = s3.log ++
        ((if B = 0 then [] else [Effect.callback T B]) ++ [Effect.TMR_ClearITPendingBit T])) ∧
    (∀ U : TIMER_Type, U ≠ T →
      (Timer_SetInterruptBase dev (TIM T) p1 q1 A pp1 sp1 s).TIMx_Function U
        = s.TIMx_Function U ∧
      (Timer_SetInterruptBase dev (TIM T) p2 q2 B pp2 sp2
        (Timer_SetInterruptBase dev (TIM T) p1 q1 A pp1 sp1 s)).TIMx_Function U
        = s.TIMx_Function U) ∧
    (∀ (addr : Nat) (f : Timer_CallbackFunction_t) (p q pp sp : Nat),
      Timer_SetInterruptBase dev (other addr) p q f pp sp s = s ∧
      (Timer_SetInterruptBase dev (other addr) p q f pp sp s).TIMx_Function
        = s.TIMx_Function) := by
  have h1 := Timer_SetInterruptBase_TIMx_Function dev T p1 q1 A pp1 sp1 s hirq
  have h2 := Timer_SetInterruptBase_TIMx_Function dev T p2 q2 B pp2 sp2
    (Timer_SetInterruptBase dev (TIM T) p1 q1 A pp1 sp1 s) hirq
  refine ⟨?_, ?_, ?_, ?_, ?_⟩
  · rw [h1, Function.update_same]
  · rw [h2, Function.update_same]
  · intro s3 htab hpend
    have hB : s3.TIMx_Function T = B := by rw [htab, h2, Function.update_same]
    rw [TMRx_IRQHANDLER_log]
    unfold dispatchSpec
    rw [if_pos hpend, hB]
  · intro U hU
    constructor
    · rw [h1, Function.update_noteq hU]
    · rw [h2, Function.update_noteq hU, h1, Function.update_noteq hU]
  · intro addr f p q pp sp
    rw [Timer_SetInterruptBase_other]
    exact ⟨rfl, rfl⟩

/-- C7 (witness) on the sample build, timer 2, callbacks `7` then `9`. -/
theorem Timer_SetInterruptBase_last_write_wins_witness :
    sampleDevice.irqNumber (irqLine TIMER2) % 256 ≠ 0 ∧
    (Timer_SetInterruptBase sampleDevice (TIM TIMER2) 50 1000 9 0 0
      (Timer_SetInterruptBase sampleDevice (TIM TIMER2) 50 1000 7 0 0
        startState)).TIMx_Function TIMER2 = 9 :=
  ⟨by decide,
    (Timer_SetInterruptBase_last_write_wins sampleDevice TIMER2 7 9
      50 1000 0 0 50 1000 0 0 startState (by decide)).2.1⟩

/-- C8. Dispatch isolation on the shared lines. In `TMR1_OV_TMR10_IRQHandler` (timers
1 then 10) and `TMR8_OV_TMR13_IRQHandler` (timers 8 then 13) the effects of one entry
are those of the dispatch rule for the first instance followed by those for the
second, each evaluated on the state at entry: the callback of an instance is invoked
exactly once if and only if its overflow flag is pending and its slot is not null,
its pending flag is cleared if and only if it was pending, neither depends on the
other instance, and the callback table is not modified. -/
theorem shared_line_dispatch_isolation (s : State) :
    ((TMR1_OV_TMR10_IRQHandler s).log
        = s.log ++ (dispatchSpec TIMER1 s ++ dispatchSpec TIMER10 s) ∧
      (TMR1_OV_TMR10_IRQHandler s).TIMx_Function = s.TIMx_Function ∧
      (TMR1_OV_TMR10_IRQHandler s).pending
        = Function.update (Function.update s.pending TIMER1 false)
            TIMER10 false) ∧
    ((TMR8_OV_TMR13_IRQHandler s).log
        = s.log ++ (dispatchSpec TIMER8 s ++ dispatchSpec TIMER13 s) ∧
      (TMR8_OV_TMR13_IRQHandler s).TIMx_Function = s.TIMx_Function ∧
      (TMR8_OV_TMR13_IRQHandler s).pending
        = Function.update (Function.update s.pending TIMER8 false)
            TIMER13 false) ∧
    (∀ (n : TIMER_Type) (f : Timer_CallbackFunction_t),
      (dispatchSpec n s).count (Effect.callback n f)
        = if s.pending n = true ∧ s.TIMx_Function n ≠ 0 ∧ f = s.TIMx_Function n then 1 else 0) ∧
    (∀ (n : TIMER_Type),
      (dispatchSpec n s).count (Effect.TMR_ClearITPendingBit n)
        = if s.pending n = true then 1 else 0) ∧
    (∀ (n m : TIMER_Type) (e : Effect), n ≠ m → e ∈ dispatchSpec n s →
      e ≠ Effect.TMR_ClearITPendingBit m ∧ ∀ f, e ≠ Effect.callback m f) := by
  have key : ∀ (a b : TIMER_Type), a ≠ b →
      dispatchSpec b (TMRx_IRQHANDLER a s) = dispatchSpec b s := by
    intro a b hab
    unfold dispatchSpec
    rw [TMRx_IRQHANDLER_TIMx_Function, TMRx_IRQHANDLER_pending,
      Function.update_noteq (Ne.symm hab)]
  refine ⟨⟨?_, ?_, ?_⟩, ⟨?_, ?_, ?_⟩, ?_, ?_, ?_⟩
  · unfold TMR1_OV_TMR10_IRQHandler
    simp only [TMRx_IRQHANDLER_log, key _ _ (by decide : TIMER1 ≠ TIMER10),
      List.append_assoc]
  · unfold TMR1_OV_TMR10_IRQHandler
    simp only [TMRx_IRQHANDLER_TIMx_Function]
  · unfold TMR1_OV_TMR10_IRQHandler
    simp only [TMRx_IRQHANDLER_pending]
  · unfold TMR8_OV_TMR13_IRQHandler
    simp only [TMRx_IRQHANDLER_log, key _ _ (by decide : TIMER8 ≠ TIMER13),
      List.append_assoc]
  · unfold TMR8_OV_TMR13_IRQHandler
    simp only [TMRx_IRQHANDLER_TIMx_Function]
  · unfold TMR8_OV_TMR13_IRQHandler
    simp only [TMRx_IRQHANDLER_pending]
  · intro n f
    unfold dispatchSpec
    by_cases hp : s.pending n = true
    · by_cases hf : s.TIMx_Function n = 0
      · simp [hp, hf]
      · by_cases hff : f = s.TIMx_Function n
        · subst hff; simp [hp, hf]
        · have : ¬ (s.TIMx_Function n = f) := fun h => hff h.symm
          simp [hp, hf, hff, this]
    · simp [hp]
  · intro n
    unfold dispatchSpec
    by_cases hp : s.pending n = true
    · by_cases hf : s.TIMx_Function n = 0
      · simp [hp, hf]
      · simp [hp, hf]
    · simp [hp]
  · intro n m e hnm he
    unfold dispatchSpec at he
    by_cases hp : s.pending n = true
    · by_cases hf : s.TIMx_Function n = 0
      · simp [hp, hf] at he
        subst he
        exact ⟨by simp [hnm], by simp⟩
      · simp [hp, hf] at he
        rcases he with he | he
        · subst he; exact ⟨by simp, by simp [hnm]⟩
        · subst he; exact ⟨by simp [hnm], by simp⟩
    · simp [hp] at he

theorem Timer_TimeToArrPsc_range (time clock : Nat) (r : ArrPsc)
    (h : Timer_TimeToArrPsc time clock = some r) : r.period < 65536 ∧ r.prescaler < 65536 := by
  unfold Timer_TimeToArrPsc at h
  simp only at h
  split at h
  · injection h with h; subst h
    exact ⟨by show 10 < 65536; omega, Nat.mod_lt _ (by decide)⟩
  · split at h
    · split at h
      · exact absurd h (by simp)
      · injection h with h; subst h
        exact ⟨Nat.mod_lt _ (by decide), Nat.mod_lt _ (by decide)⟩
    · split at h
      · exact absurd h (by simp)
      · injection h with h; subst h
        exact ⟨Nat.mod_lt _ (by decide), Nat.mod_lt _ (by decide)⟩

theorem Timer_SetInterruptFreqUpdate_TIM (dev : Device) (n : TIMER_Type) (freq p0 q0 : Nat)
    (s : State) (hfreq : freq ≠ 0) :
    Timer_SetInterruptFreqUpdate dev (TIM n) freq p0 q0 s =
      (Timer_FreqToArrPsc freq (dev.F_CPU / 2) p0 q0).map (fun r =>
        { s with AR := Function.update s.AR n (minusOne16 r.period),
                 DIV := Function.update s.DIV n (minusOne16 r.prescaler),
                 log := s.log ++ [Effect.TMR_SetAutoreload n (minusOne16 r.period),
                                  Effect.TMR_DIVConfig n (minusOne16 r.prescaler)] }) := by
  unfold Timer_SetInterruptFreqUpdate
  simp only [IS_TMR_ALL_PERIPH, Bool.not_true, Bool.false_or, beq_iff_eq, hfreq, if_false]
  cases Timer_FreqToArrPsc freq (dev.F_CPU / 2) p0 q0 with
  | none => rfl
  | some r => simp [TMR_SetAutoreload, TMR_DIVConfig]

theorem Timer_SetInterruptTimeUpdate_TIM (dev : Device) (n : TIMER_Type) (time : Nat)
    (s : State) :
    Timer_SetInterruptTimeUpdate dev (TIM n) time s =
      (Timer_TimeToArrPsc time (dev.F_CPU / 2)).map (fun r =>
        { s with AR := Function.update s.AR n (minusOne16 r.period),
                 DIV := Function.update s.DIV n (minusOne16 r.prescaler),
                 log := s.log ++ [Effect.TMR_SetAutoreload n (minusOne16 r.period),
                                  Effect.TMR_DIVConfig n (minusOne16 r.prescaler)] }) := by
  unfold Timer_SetInterruptTimeUpdate
  simp only [IS_TMR_ALL_PERIPH, Bool.not_true, Bool.false_eq_true, if_false]
  cases Timer_TimeToArrPsc time (dev.F_CPU / 2) with
  | none => rfl
  | some r => simp [TMR_SetAutoreload, TMR_DIVConfig]

/-- C9. Frame of the cheap update path. For every timer address, frequency and time,
a completed `Timer_SetInterruptFreqUpdate` or `Timer_SetInterruptTimeUpdate` leaves
the callback table, the clock gating and the interrupt-controller configuration
unchanged; on a supported timer `TIM n` the call is the register conversion with
`clock = F_CPU / 2` followed by exactly two writes, `period - 1` to the reload
register and `prescaler - 1` to the prescaler register of that timer, every other
register and flag keeping its value; and `Timer_SetInterruptFreqUpdate` changes
nothing when `freq == 0` or the address is unsupported, as does
`Timer_SetInterruptTimeUpdate` on an unsupported address. -/
theorem update_path_frame (dev : Device) (TIMx : TIM_TypeDef) (freq time p0 q0 : Nat)
    (s : State) :
    (∀ s', Timer_SetInterruptFreqUpdate dev TIMx freq p0 q0 s = some s' →
      s'.TIMx_Function = s.TIMx_Function ∧ s'.clockEnabled = s.clockEnabled ∧
      s'.nvic = s.nvic) ∧
    (∀ s', Timer_SetInterruptTimeUpdate dev TIMx time s = some s' →
      s'.TIMx_Function = s.TIMx_Function ∧ s'.clockEnabled = s.clockEnabled ∧
      s'.nvic = s.nvic) ∧
    (∀ n, TIMx = TIM n → freq ≠ 0 →
      Timer_SetInterruptFreqUpdate dev TIMx freq p0 q0 s =
        (Timer_FreqToArrPsc freq (dev.F_CPU / 2) p0 q0).map (fun r =>
          { s with AR := Function.update s.AR n (minusOne16 r.period),
                   DIV := Function.update s.DIV n (minusOne16 r.prescaler),
                   log := s.log ++ [Effect.TMR_SetAutoreload n (minusOne16 r.period),
                                    Effect.TMR_DIVConfig n (minusOne16 r.prescaler)] })) ∧
    (∀ n, TIMx = TIM n →
      Timer_SetInterruptTimeUpdate dev TIMx time s =
        (Timer_TimeToArrPsc time (dev.F_CPU / 2)).map (fun r =>
          { s with AR := Function.update s.AR n (minusOne16 r.period),
                   DIV := Function.update s.DIV n (minusOne16 r.prescaler),
                   log := s.log ++ [Effect.TMR_SetAutoreload n (minusOne16 r.period),
                                    Effect.TMR_DIVConfig n (minusOne16 r.prescaler)] })) ∧
    (freq = 0 ∨ IS_TMR_ALL_PERIPH TIMx = false →
      Timer_SetInterruptFreqUpdate dev TIMx freq p0 q0 s = some s) ∧
    (IS_TMR_ALL_PERIPH TIMx = false →
      Timer_SetInterruptTimeUpdate dev TIMx time s = some s) ∧
    (∀ x : Nat, 1 ≤ x → x ≤ 65535 → minusOne16 x = x - 1) := by
  have hnoopF : freq = 0 ∨ IS_TMR_ALL_PERIPH TIMx = false →
      Timer_SetInterruptFreqUpdate dev TIMx freq p0 q0 s = some s := by
    intro h
    unfold Timer_SetInterruptFreqUpdate
    rcases h with h | h
    · simp [h]
    · simp [h]
  have hnoopT : IS_TMR_ALL_PERIPH TIMx = false →
      Timer_SetInterruptTimeUpdate dev TIMx time s = some s := by
    intro h
    unfold Timer_SetInterruptTimeUpdate
    simp [h]
  refine ⟨?_, ?_, ?_, ?_, hnoopF, hnoopT, ?_⟩
  · intro s' hs'
    cases TIMx with
    | other addr =>
      rw [hnoopF (Or.inr rfl)] at hs'
      injection hs' with hs'; subst hs'; exact ⟨rfl, rfl, rfl⟩
    | TIM n =>
      by_cases hfreq : freq = 0
      · rw [hnoopF (Or.inl hfreq)] at hs'
        injection hs' with hs'; subst hs'; exact ⟨rfl, rfl, rfl⟩
      · rw [Timer_SetInterruptFreqUpdate_TIM dev n freq p0 q0 s hfreq] at hs'
        cases hconv : Timer_FreqToArrPsc freq (dev.F_CPU / 2) p0 q0 with
        | none => rw [hconv] at hs'; exact absurd hs' (by simp)
        | some r =>
          rw [hconv] at hs'
          simp only [Option.map_some'] at hs'
          injection hs' with hs'; subst hs'; exact ⟨rfl, rfl, rfl⟩
  · intro s' hs'
    cases TIMx with
    | other addr =>
      rw [hnoopT rfl] at hs'
      injection hs' with hs'; subst hs'; exact ⟨rfl, rfl, rfl⟩
    | TIM n =>
      rw [Timer_SetInterruptTimeUpdate_TIM dev n time s] at hs'
      cases hconv : Timer_TimeToArrPsc time (dev.F_CPU / 2) with
      | none => rw [hconv] at hs'; exact absurd hs' (by simp)
      | some r =>
        rw [hconv] at hs'
        simp only [Option.map_some'] at hs'
        injection hs' with hs'; subst hs'; exact ⟨rfl, rfl, rfl⟩
  · intro n hn hfreq
    subst hn
    exact Timer_SetInterruptFreqUpdate_TIM dev n freq p0 q0 s hfreq
  · intro n hn
    subst hn
    exact Timer_SetInterruptTimeUpdate_TIM dev n time s
  · intro x h1 h2
    unfold minusOne16
    omega

/-- C9 (witness) on the sample build: `Timer_SetInterruptTimeUpdate(TIM2, 500)` from
the start-up state writes `49` to the reload register and `999` to the prescaler
register of timer 2 and nothing else. -/
theorem update_path_frame_witness :
    Timer_SetInterruptTimeUpdate sampleDevice (TIM TIMER2) 500 startState
      = some { startState with
          AR := Function.update startState.AR TIMER2 49,
          DIV := Function.update startState.DIV TIMER2 999,
          log := [Effect.TMR_SetAutoreload TIMER2 49,
                  Effect.TMR_DIVConfig TIMER2 999] } := by
  have h := (update_path_frame sampleDevice (TIM TIMER2) 1000 500 0 0
    startState).2.2.2.1 TIMER2 rfl
  have hconv : Timer_TimeToArrPsc 500 (sampleDevice.F_CPU / 2)
      = some { period := 50, prescaler := 1000 } := by decide
  rw [h, hconv]
  rfl

/-- C10. Read-back inverts configuration. For a supported timer `TIM n` and a time for
which `Timer_TimeToArrPsc(time, F_CPU / 2)` yields `period ≥ 1` and `prescaler ≥ 1`,
`Timer_SetInterruptTimeUpdate(TIM n, time)` completes and afterwards
`Timer_GetClockOut(TIM n)` is `(F_CPU / 2) / (period * prescaler)`; and
`Timer_GetClockOut` returns `0` for every unsupported timer address. -/
theorem Timer_GetClockOut_inverts_TimeUpdate (dev : Device) (n : TIMER_Type) (time : Nat)
    (r : ArrPsc) (s : State)
    (hr : Timer_TimeToArrPsc time (dev.F_CPU / 2) = some r)
    (hp : 1 ≤ r.period) (hq : 1 ≤ r.prescaler) :
    (∃ s', Timer_SetInterruptTimeUpdate dev (TIM n) time s = some s' ∧
      Timer_GetClockOut dev (TIM n) s'
        = some (dev.F_CPU / 2 / (r.period * r.prescaler))) ∧
    (∀ (addr : Nat) (s0 : State), Timer_GetClockOut dev (other addr) s0 = some 0) := by
  obtain ⟨hp', hq'⟩ := Timer_TimeToArrPsc_range time (dev.F_CPU / 2) r hr
  constructor
  · rw [Timer_SetInterruptTimeUpdate_TIM, hr]
    refine ⟨_, rfl, ?_⟩
    have e1 : minusOne16 r.period + 1 = r.period := by unfold minusOne16; omega
    have e2 : minusOne16 r.prescaler + 1 = r.prescaler := by unfold minusOne16; omega
    have hlo : 1 * 1 ≤ r.period * r.prescaler := Nat.mul_le_mul hp hq
    have hhi : r.period * r.prescaler ≤ 65535 * 65535 :=
      Nat.mul_le_mul (by omega) (by omega)
    have hmod : r.period * r.prescaler % 4294967296 = r.period * r.prescaler :=
      Nat.mod_eq_of_lt (by omega)
    unfold Timer_GetClockOut
    simp only [IS_TMR_ALL_PERIPH, Bool.not_true, Bool.false_eq_true, if_false, readAR, readDIV,
      Function.update_same, e1, e2, hmod]
    rw [if_neg (by omega)]
  · intro addr s0
    unfold Timer_GetClockOut
    simp [IS_TMR_ALL_PERIPH]

/-- C10 (witness) on the sample build: after `Timer_SetInterruptTimeUpdate(TIM2, 500)`
the read-back frequency is `100000000 / (50 * 1000) = 2000`. -/
theorem Timer_GetClockOut_inverts_TimeUpdate_witness :
    (Timer_TimeToArrPsc 500 (sampleDevice.F_CPU / 2) = some { period := 50, prescaler := 1000 } ∧
      1 ≤ 50 ∧ 1 ≤ 1000) ∧
    ∃ s', Timer_SetInterruptTimeUpdate sampleDevice (TIM TIMER2) 500
        startState = some s' ∧
      Timer_GetClockOut sampleDevice (TIM TIMER2) s'
        = some (sampleDevice.F_CPU / 2 / (50 * 1000)) :=
  ⟨by decide,
    (Timer_GetClockOut_inverts_TimeUpdate sampleDevice TIMER2 500
      { period := 50, prescaler := 1000 } startState (by decide) (by decide) (by decide)).1⟩

/-! ## Register math: full scan, unset outputs, approximation bound -/

theorem arrScanAll_of_zero (P psc : Nat) (hP : P < 2 ^ 30) (hpsc : psc ≤ 32767) :
    ∀ (n arr : Nat) (st : Search), 65535 - arr = n → st.max_error = 0 →
      arrScanAll P psc arr st = st := by
  intro n
  induction n with
  | zero =>
    intro arr st hn _
    rw [arrScanAll]
    simp only [show ¬ arr < 65535 by omega, if_false]
  | succ n ih =>
    intro arr st hn h0
    have harr : arr < 65535 := by omega
    have he := newerr_eq_deviation P psc arr hP hpsc harr
    rw [arrScanAll]
    have hnot : ¬ ((deviation P arr psc : Int) < (st.max_error : Int)) := by
      rw [h0]; simp
    simp only [harr, if_true, he, hnot, if_false]
    exact ih (arr + 1) st (by omega) h0

theorem pscScanAll_of_zero (P : Nat) (hP : P < 2 ^ 30) :
    ∀ (psc : Nat) (st : Search), psc ≤ 32767 → st.max_error = 0 →
      pscScanAll P psc st = st := by
  intro psc
  induction psc with
  | zero =>
    intro st _ _
    rw [pscScanAll]
    simp only [show ¬ (0 > 1) by omega, if_false]
  | succ k ih =>
    intro st hk h0
    rw [pscScanAll]
    by_cases hk1 : k + 1 > 1
    · simp only [hk1, if_true, Nat.add_sub_cancel]
      rw [arrScanAll_of_zero P (k + 1) hP hk _ (k + 1) st rfl h0]
      exact ih st (by omega) h0
    · simp only [hk1, if_false]

theorem arrScanAll_eq_arrLoop (P psc : Nat) (hP : P < 2 ^ 30) (hpsc : psc ≤ 32767) :
    ∀ (n arr : Nat) (st : Search), 65535 - arr = n → st.success = false →
      arrScanAll P psc arr st = { arrLoop P psc arr st with success := false } ∧
      ((arrLoop P psc arr st).success = true → (arrLoop P psc arr st).max_error = 0) := by
  intro n
  induction n with
  | zero =>
    intro arr st hn hs
    rw [arrScanAll, arrLoop]
    simp only [show ¬ arr < 65535 by omega, if_false]
    refine ⟨?_, fun h => by rw [hs] at h; exact absurd h (by simp)⟩
    cases st; simp only at hs; subst hs; rfl
  | succ n ih =>
    intro arr st hn hs
    have harr : arr < 65535 := by omega
    rw [arrScanAll, arrLoop]
    simp only [harr, if_true]
    by_cases hlt : newerr P psc arr < (st.max_error : Int)
    · simp only [hlt, if_true]
      by_cases hz : (newerr P psc arr % 65536).toNat = 0
      · simp only [hz, if_true]
        refine ⟨?_, ?_⟩
        · exact arrScanAll_of_zero P psc hP hpsc (65535 - (arr + 1)) (arr + 1) _ rfl
            rfl
        · simp
      · simp only [hz, if_false]
        exact ih (arr + 1) _ (by omega) rfl
    · simp only [hlt, if_false]
      exact ih (arr + 1) st (by omega) hs

theorem pscScanAll_eq_pscLoop (P : Nat) (hP : P < 2 ^ 30) :
    ∀ (psc : Nat) (st : Search), psc ≤ 32767 → st.success = false →
      pscScanAll P psc st = { pscLoop P psc st with success := false } := by
  intro psc
  induction psc with
  | zero =>
    intro st _ hs
    rw [pscScanAll, pscLoop]
    simp only [show ¬ (0 > 1) by omega, if_false]
    cases st; simp only at hs; subst hs; rfl
  | succ k ih =>
    intro st hk hs
    rw [pscScanAll, pscLoop]
    by_cases hk1 : k + 1 > 1
    · simp only [hk1, if_true, Nat.add_sub_cancel]
      obtain ⟨e1, e2⟩ := arrScanAll_eq_arrLoop P (k + 1) hP hk _ (k + 1) st rfl hs
      rw [e1]
      by_cases hsucc : (arrLoop P (k + 1) (k + 1) st).success = true
      · simp only [hsucc, if_true]
        exact pscScanAll_of_zero P hP k _ (by omega) (e2 hsucc)
      · simp only [hsucc, if_false]
        have hfalse : (arrLoop P (k + 1) (k + 1) st).success = false := by simpa using hsucc
        have heta : ({ arrLoop P (k + 1) (k + 1) st with success := false } : Search)
            = arrLoop P (k + 1) (k + 1) st := by
          generalize arrLoop P (k + 1) (k + 1) st = a at hfalse
          cases a; simp only at hfalse; subst hfalse; rfl
        rw [heta]
        exact ih _ (by omega) hfalse
    · simp only [hk1, if_false]
      cases st; simp only at hs; subst hs; rfl

theorem Timer_FreqToArrPsc_some_pair (freq clock p0 q0 : Nat) (r : FreqResult)
    (hne : ¬ (freq = 0 ∨ freq > clock))
    (hr : Timer_FreqToArrPsc freq clock p0 q0 = some r) :
    r.period = (pscLoop (clock / freq) (Nat.sqrt (clock / freq))
        { max_error := 0xFFFF, period := p0, prescaler := q0, success := false }).period ∧
    r.prescaler = (pscLoop (clock / freq) (Nat.sqrt (clock / freq))
        { max_error := 0xFFFF, period := p0, prescaler := q0, success := false }).prescaler := by
  unfold Timer_FreqToArrPsc at hr
  simp only [hne, if_false] at hr
  split at hr
  · exact absurd hr (by simp)
  · injection hr with hr; subst hr; exact ⟨rfl, rfl⟩

/-- C16. Search-domain optimality. For `0 < freq ≤ clock` and `P = clock / freq` with
`4 ≤ P < 2^30`, `Timer_FreqToArrPsc` writes a pair `(period, prescaler)` of
`D = {(a, p) : 2 ≤ p ≤ ⌊√P⌋, p ≤ a ≤ 65534}` whose deviation `|period * prescaler - P|`
is at most `|a * p - P|` for every `(a, p)` of `D`; and the early stop on a
zero-deviation pair changes nothing: the scan of all of `D` without the early stop
yields the same pair. -/
theorem Timer_FreqToArrPsc_scan_optimal (freq clock p0 q0 : Nat) (hf : 0 < freq)
    (hfc : freq ≤ clock) (h4 : 4 ≤ clock / freq) (hP : clock / freq < 2 ^ 30) :
    ∃ r, Timer_FreqToArrPsc freq clock p0 q0 = some r ∧
      (2 ≤ r.prescaler ∧ r.prescaler ≤ Nat.sqrt (clock / freq) ∧
        r.prescaler ≤ r.period ∧ r.period ≤ 65534) ∧
      (∀ a p : Nat, 2 ≤ p → p ≤ Nat.sqrt (clock / freq) → p ≤ a → a ≤ 65534 →
        |((r.period : Int) * (r.prescaler : Int)) - ((clock / freq : Nat) : Int)|
          ≤ |((a : Int) * (p : Int)) - ((clock / freq : Nat) : Int)|) ∧
      (pscScanAll (clock / freq) (Nat.sqrt (clock / freq))
          { max_error := 0xFFFF, period := p0, prescaler := q0, success := false }).period
        = r.period ∧
      (pscScanAll (clock / freq) (Nat.sqrt (clock / freq))
          { max_error := 0xFFFF, period := p0, prescaler := q0, success := false }).prescaler
        = r.prescaler := by
  obtain ⟨r, hr, h1, h2, h3, h4', _, hmin⟩ :=
    search_result_minimal freq clock p0 q0 hf hfc h4 hP
  have hs : Nat.sqrt (clock / freq) < 32768 := Nat.sqrt_lt.mpr (by
    have : (32768 : Nat) * 32768 = 2 ^ 30 := by norm_num
    omega)
  obtain ⟨f1, f2⟩ := Timer_FreqToArrPsc_some_pair freq clock p0 q0 r (by omega) hr
  have hscan := pscScanAll_eq_pscLoop (clock / freq) hP (Nat.sqrt (clock / freq))
    { max_error := 0xFFFF, period := p0, prescaler := q0, success := false } (by omega) rfl
  refine ⟨r, hr, ⟨h1, h2, h3, h4'⟩, ?_, ?_, ?_⟩
  · intro a p hp2 hps hpa ha
    have := hmin a p hp2 hps hpa ha
    unfold deviation at this
    rw [Int.abs_eq_natAbs, Int.abs_eq_natAbs]
    exact Int.ofNat_le.mpr this
  · rw [hscan, f1]
  · rw [hscan, f2]

/-- C16 (witness) at `clock = 1000`, `freq = 10`. -/
theorem Timer_FreqToArrPsc_scan_optimal_witness :
    (0 < 10 ∧ 10 ≤ 1000 ∧ 4 ≤ 1000 / 10 ∧ 1000 / 10 < 2 ^ 30) ∧
    ∃ r, Timer_FreqToArrPsc 10 1000 0 0 = some r ∧
      (2 ≤ r.prescaler ∧ r.prescaler ≤ Nat.sqrt (1000 / 10) ∧
        r.prescaler ≤ r.period ∧ r.period ≤ 65534) ∧
      (∀ a p : Nat, 2 ≤ p → p ≤ Nat.sqrt (1000 / 10) → p ≤ a → a ≤ 65534 →
        |((r.period : Int) * (r.prescaler : Int)) - ((1000 / 10 : Nat) : Int)|
          ≤ |((a : Int) * (p : Int)) - ((1000 / 10 : Nat) : Int)|) ∧
      (pscScanAll (1000 / 10) (Nat.sqrt (1000 / 10))
          { max_error := 0xFFFF, period := 0, prescaler := 0, success := false }).period
        = r.period ∧
      (pscScanAll (1000 / 10) (Nat.sqrt (1000 / 10))
          { max_error := 0xFFFF, period := 0, prescaler := 0, success := false }).prescaler
        = r.prescaler :=
  ⟨by decide,
    Timer_FreqToArrPsc_scan_optimal 10 1000 0 0 (by decide) (by decide) (by decide)
      (by decide)⟩

/-- C17. Unset outputs on small products. For `0 < freq ≤ clock` with
`clock / freq < 4` the integer square root is at most `1`, the prescaler loop body
never runs and the search leaves `*period` and `*prescaler` as the caller
pre-populated them (`p0`, `q0`); the value returned is `freq - clock / (p0 * q0)` as
an `int32_t`, computed from those values, and when `p0 * q0` is zero that division
has a zero divisor. -/
theorem Timer_FreqToArrPsc_small_product (freq clock p0 q0 : Nat) (hf : 0 < freq)
    (hfc : freq ≤ clock) (hP : clock / freq < 4) (hp0 : p0 < 65536) (hq0 : q0 < 65536) :
    Nat.sqrt (clock / freq) ≤ 1 ∧
    pscLoop (clock / freq) (Nat.sqrt (clock / freq))
        { max_error := 0xFFFF, period := p0, prescaler := q0, success := false }
      = { max_error := 0xFFFF, period := p0, prescaler := q0, success := false } ∧
    (p0 * q0 ≠ 0 →
      Timer_FreqToArrPsc freq clock p0 q0 =
        some { ret := int32 ((freq : Int) - ((clock / (p0 * q0) : Nat) : Int)),
               period := p0, prescaler := q0 }) ∧
    (p0 * q0 = 0 → Timer_FreqToArrPsc freq clock p0 q0 = none) := by
  have hsq : Nat.sqrt (clock / freq) ≤ 1 := by
    have : Nat.sqrt (clock / freq) < 2 := Nat.sqrt_lt.mpr (by omega)
    omega
  have hloop : pscLoop (clock / freq) (Nat.sqrt (clock / freq))
        { max_error := 0xFFFF, period := p0, prescaler := q0, success := false }
      = { max_error := 0xFFFF, period := p0, prescaler := q0, success := false } := by
    rw [pscLoop, if_neg (by omega)]
  have hne : ¬ (freq = 0 ∨ freq > clock) := by omega
  have hprod : p0 * q0 ≤ 65535 * 65535 := Nat.mul_le_mul (by omega) (by omega)
  have hmod : p0 * q0 % 4294967296 = p0 * q0 := Nat.mod_eq_of_lt (by omega)
  refine ⟨hsq, hloop, ?_, ?_⟩
  · intro hnz
    unfold Timer_FreqToArrPsc
    simp only [hne, if_false, hloop, hmod]
    rw [if_neg hnz]
  · intro hz
    unfold Timer_FreqToArrPsc
    simp only [hne, if_false, hloop, hmod]
    rw [if_pos hz]

/-- C17 (witness) at `clock = 3`, `freq = 1` with the out-parameters pre-populated
with `5` and `6`. -/
theorem Timer_FreqToArrPsc_small_product_witness :
    (0 < 1 ∧ 1 ≤ 3 ∧ 3 / 1 < 4 ∧ 5 < 65536 ∧ 6 < 65536 ∧ 5 * 6 ≠ 0) ∧
    Timer_FreqToArrPsc 1 3 5 6 =
      some { ret := int32 (((1 : Nat) : Int) - ((3 / (5 * 6) : Nat) : Int)),
             period := 5, prescaler := 6 } :=
  ⟨by decide,
    (Timer_FreqToArrPsc_small_product 1 3 5 6 (by decide) (by decide) (by decide) (by decide)
      (by decide)).2.2.1 (by decide)⟩

/-- C20. Approximation bound of `Timer_TimeToArrPsc`. For `34000000 ≤ clock < 2^32` and
`time ≥ 1` with `product = time * (clock / 1000000) < 1310720000`, the routine
completes with `1 ≤ period ≤ 65535`, `1 ≤ prescaler ≤ 65535` and
`period * prescaler ≤ product < period * prescaler + period`. -/
theorem Timer_TimeToArrPsc_approximation (time clock : Nat) (hc : clock < 2 ^ 32)
    (h34 : 34000000 ≤ clock) (ht : 1 ≤ time)
    (hprod : time * (clock / 1000000) < 1310720000) :
    ∃ r, Timer_TimeToArrPsc time clock = some r ∧
      (1 ≤ r.period ∧ r.period ≤ 65535) ∧ (1 ≤ r.prescaler ∧ r.prescaler ≤ 65535) ∧
      r.period * r.prescaler ≤ time * (clock / 1000000) ∧
      time * (clock / 1000000) < r.period * r.prescaler + r.period := by
  have hc' : clock < 4294967296 := by simpa using hc
  have hcpm : clock / 1000000 ≤ 4294 := by omega
  have hcpm34 : 34 ≤ clock / 1000000 := by omega
  have hge : clock / 1000000 ≤ time * (clock / 1000000) := Nat.le_mul_of_pos_left _ ht
  have h30 : clock / 1000000 * 30 % 4294967296 = clock / 1000000 * 30 :=
    Nat.mod_eq_of_lt (by omega)
  have hpm : time * (clock / 1000000) % 4294967296 = time * (clock / 1000000) :=
    Nat.mod_eq_of_lt (by omega)
  unfold Timer_TimeToArrPsc
  simp only [h30, hpm]
  generalize time * (clock / 1000000) = product at hprod hge ⊢
  have bound : ∀ arr : Nat, 0 < arr →
      arr * (product / arr) ≤ product ∧ product < arr * (product / arr) + arr := by
    intro arr harr
    have h1 := Nat.div_add_mod product arr
    have h2 := Nat.mod_lt product harr
    constructor <;> omega
  by_cases c1 : product < clock / 1000000 * 30
  · rw [if_pos c1]
    have hq : product / 10 % 65536 = product / 10 := Nat.mod_eq_of_lt (by omega)
    refine ⟨_, rfl, ⟨by show 1 ≤ 10; omega, by show 10 ≤ 65535; omega⟩, ?_, ?_, ?_⟩
    · show 1 ≤ product / 10 % 65536 ∧ product / 10 % 65536 ≤ 65535
      rw [hq]; omega
    · show 10 * (product / 10 % 65536) ≤ product
      rw [hq]; omega
    · show product < 10 * (product / 10 % 65536) + 10
      rw [hq]; omega
  · rw [if_neg c1]
    by_cases c2 : product < 65535 * 1000
    · have harr : product / 1000 % 65536 = product / 1000 := Nat.mod_eq_of_lt (by omega)
      have hpos : 0 < product / 1000 := by omega
      have hpsc : product / (product / 1000) < 65536 := by
        rw [Nat.div_lt_iff_lt_mul hpos]; omega
      have hpsc1 : 1 ≤ product / (product / 1000) := by
        rw [Nat.le_div_iff_mul_le hpos]; omega
      rw [if_pos c2, harr, if_neg (by omega), Nat.mod_eq_of_lt hpsc]
      obtain ⟨b1, b2⟩ := bound (product / 1000) hpos
      exact ⟨_, rfl, ⟨hpos, by show product / 1000 ≤ 65535; omega⟩,
        ⟨hpsc1, by show product / (product / 1000) ≤ 65535; omega⟩, b1, b2⟩
    · have harr : product / 20000 % 65536 = product / 20000 := Nat.mod_eq_of_lt (by omega)
      have hpos : 0 < product / 20000 := by omega
      have hpsc : product / (product / 20000) < 65536 := by
        rw [Nat.div_lt_iff_lt_mul hpos]; omega
      have hpsc1 : 1 ≤ product / (product / 20000) := by
        rw [Nat.le_div_iff_mul_le hpos]; omega
      rw [if_neg c2, harr, if_neg (by omega), Nat.mod_eq_of_lt hpsc]
      obtain ⟨b1, b2⟩ := bound (product / 20000) hpos
      exact ⟨_, rfl, ⟨hpos, by show product / 20000 ≤ 65535; omega⟩,
        ⟨hpsc1, by show product / (product / 20000) ≤ 65535; omega⟩, b1, b2⟩

/-- C20 (witness) at `time = 500`, `clock = 100000000` (product `50000`). -/
theorem Timer_TimeToArrPsc_approximation_witness :
    (100000000 < 2 ^ 32 ∧ 34000000 ≤ 100000000 ∧ 1 ≤ 500 ∧
      500 * (100000000 / 1000000) < 1310720000) ∧
    ∃ r, Timer_TimeToArrPsc 500 100000000 = some r ∧
      (1 ≤ r.period ∧ r.period ≤ 65535) ∧ (1 ≤ r.prescaler ∧ r.prescaler ≤ 65535) ∧
      r.period * r.prescaler ≤ 500 * (100000000 / 1000000) ∧
      500 * (100000000 / 1000000) < r.period * r.prescaler + r.period :=
  ⟨by decide,
    Timer_TimeToArrPsc_approximation 500 100000000 (by decide) (by decide) (by decide)
      (by decide)⟩

/-! ## Timer control: order of effects and coverage of the dispatch layer -/

theorem Timer_ClockCmd_TIM (T : TIMER_Type) (b : Bool) (s : State) :
    Timer_ClockCmd (TIM T) b s =
      { s with clockEnabled := Function.update s.clockEnabled T b,
               log := s.log ++ [clockCmdEffect T b] } := by
  cases T <;> rfl

theorem Timer_SetInterruptBase_TIM (dev : Device) (T : TIMER_Type)
    (period prescaler : Nat) (f : Timer_CallbackFunction_t) (pp sp : Nat) (s : State)
    (hirq : dev.irqNumber (irqLine T) % 256 ≠ 0) :
    Timer_SetInterruptBase dev (TIM T) period prescaler f pp sp s =
      { TIMx_Function := Function.update s.TIMx_Function T f,
        AR := Function.update (Function.update s.AR T dev.resetAR) T (minusOne16 period),
        DIV := Function.update (Function.update s.DIV T dev.resetDIV) T (minusOne16 prescaler),
        countUp := Function.update (Function.update s.countUp T true) T true,
        clockEnabled := Function.update s.clockEnabled T true,
        pending := Function.update (Function.update s.pending T false) T false,
        overflowInt := Function.update (Function.update s.overflowInt T false) T true,
        nvic := Function.update s.nvic (dev.irqNumber (irqLine T) % 256)
          (some { NVIC_IRQChannel := dev.irqNumber (irqLine T) % 256,
                  NVIC_IRQChannelPreemptionPriority := pp,
                  NVIC_IRQChannelSubPriority := sp,
                  NVIC_IRQChannelCmd := true }),
        log := s.log ++
          [Effect.storeCallback T f,
           Effect.TMR_Reset T,
           clockCmdEffect T true,
           Effect.TMR_TimeBaseInit T
             { TMR_RepetitionCounter := 0, TMR_Period := minusOne16 period,
               TMR_DIV := minusOne16 prescaler, clockDivision1 := true,
               counterDirUp := true, plusEnable := true },
           Effect.NVIC_Init
             { NVIC_IRQChannel := dev.irqNumber (irqLine T) % 256,
               NVIC_IRQChannelPreemptionPriority := pp,
               NVIC_IRQChannelSubPriority := sp,
               NVIC_IRQChannelCmd := true },
           Effect.TMR_ClearFlag T,
           Effect.TMR_INTConfig T true] } := by
  unfold Timer_SetInterruptBase
  simp only [IS_TMR_ALL_PERIPH, Bool.not_true, Bool.false_eq_true, if_false,
    TMRx_IRQ_DEF_all_TIM, hirq]
  simp only [TMR_INTConfig, TMR_ClearFlag, NVIC_Init, TMR_TimeBaseInit,
    Timer_ClockCmd_TIM, TMR_Reset, List.append_assoc, List.singleton_append,
    List.cons_append, List.nil_append]

/-- C18 (counterexample). On the sample build, `Timer_SetInterruptBase(TIM2, 50, 1000,
f, 0, 0)` from the start-up state produces its effects with the peripheral reset
before the bus clock enable: the second effect is `TMR_Reset` and the third is the
clock command, not the other way round. -/
theorem Timer_SetInterruptBase_resets_before_clock :
    sampleDevice.irqNumber (irqLine TIMER2) % 256 ≠ 0 ∧
    (Timer_SetInterruptBase sampleDevice (TIM TIMER2) 50 1000 7 0 0 startState).log =
      [Effect.storeCallback TIMER2 7,
       Effect.TMR_Reset TIMER2,
       Effect.RCC_APB1PeriphClockCmd TIMER2 true,
       Effect.TMR_TimeBaseInit TIMER2
         { TMR_RepetitionCounter := 0, TMR_Period := 49, TMR_DIV := 999,
           clockDivision1 := true, counterDirUp := true, plusEnable := true },
       Effect.NVIC_Init
         { NVIC_IRQChannel := 28, NVIC_IRQChannelPreemptionPriority := 0,
           NVIC_IRQChannelSubPriority := 0, NVIC_IRQChannelCmd := true },
       Effect.TMR_ClearFlag TIMER2,
       Effect.TMR_INTConfig TIMER2 true] ∧
    (Timer_SetInterruptBase sampleDevice (TIM TIMER2) 50 1000 7 0 0 startState).log ≠
      [Effect.storeCallback TIMER2 7,
       Effect.RCC_APB1PeriphClockCmd TIMER2 true,
       Effect.TMR_Reset TIMER2,
       Effect.TMR_TimeBaseInit TIMER2
         { TMR_RepetitionCounter := 0, TMR_Period := 49, TMR_DIV := 999,
           clockDivision1 := true, counterDirUp := true, plusEnable := true },
       Effect.NVIC_Init
         { NVIC_IRQChannel := 28, NVIC_IRQChannelPreemptionPriority := 0,
           NVIC_IRQChannelSubPriority := 0, NVIC_IRQChannelCmd := true },
       Effect.TMR_ClearFlag TIMER2,
       Effect.TMR_INTConfig TIMER2 true] := by
  have h := Timer_SetInterruptBase_TIM sampleDevice TIMER2 50 1000 7 0 0 startState
    (by decide)
  rw [h]
  refine ⟨by decide, by decide, by decide⟩

/-- C18 (amended). For every supported timer `T` (its interrupt line has a non-zero
channel number), `Timer_SetInterruptBase` performs exactly these effects, in this
order: (1) store the callback in the slot of `T`, (2) reset the peripheral
configuration, (3) enable the bus clock of the peripheral, (4) program `period - 1`
and `prescaler - 1` with up-counting mode, (5) configure the interrupt-controller
channel of the line of `T` with the given priorities, (6) clear the pending update
flag, (7) enable the overflow interrupt source; for an unsupported timer address
none of them occurs. -/
theorem Timer_SetInterruptBase_effect_order (dev : Device) (T : TIMER_Type)
    (period prescaler : Nat) (f : Timer_CallbackFunction_t) (pp sp : Nat) (s : State)
    (hirq : dev.irqNumber (irqLine T) % 256 ≠ 0) :
    (Timer_SetInterruptBase dev (TIM T) period prescaler f pp sp s).log =
      s.log ++
        [Effect.storeCallback T f,
         Effect.TMR_Reset T,
         clockCmdEffect T true,
         Effect.TMR_TimeBaseInit T
           { TMR_RepetitionCounter := 0, TMR_Period := minusOne16 period,
             TMR_DIV := minusOne16 prescaler, clockDivision1 := true,
             counterDirUp := true, plusEnable := true },
         Effect.NVIC_Init
           { NVIC_IRQChannel := dev.irqNumber (irqLine T) % 256,
             NVIC_IRQChannelPreemptionPriority := pp,
             NVIC_IRQChannelSubPriority := sp,
             NVIC_IRQChannelCmd := true },
         Effect.TMR_ClearFlag T,
         Effect.TMR_INTConfig T true] ∧
    (clockCmdEffect T true = Effect.RCC_APB1PeriphClockCmd T true ∨
      clockCmdEffect T true = Effect.RCC_APB2PeriphClockCmd T true) ∧
    ((Timer_SetInterruptBase dev (TIM T) period prescaler f pp sp s).TIMx_Function T = f ∧
      (Timer_SetInterruptBase dev (TIM T) period prescaler f pp sp s).clockEnabled T = true ∧
      (Timer_SetInterruptBase dev (TIM T) period prescaler f pp sp s).AR T
        = minusOne16 period ∧
      (Timer_SetInterruptBase dev (TIM T) period prescaler f pp sp s).DIV T
        = minusOne16 prescaler ∧
      (Timer_SetInterruptBase dev (TIM T) period prescaler f pp sp s).countUp T = true ∧
      (Timer_SetInterruptBase dev (TIM T) period prescaler f pp sp s).pending T = false ∧
      (Timer_SetInterruptBase dev (TIM T) period prescaler f pp sp s).overflowInt T = true) ∧
    (∀ addr : Nat,
      Timer_SetInterruptBase dev (other addr) period prescaler f pp sp s = s) := by
  rw [Timer_SetInterruptBase_TIM dev T period prescaler f pp sp s hirq]
  refine ⟨rfl, ?_, ?_, ?_⟩
  · cases T <;> simp [clockCmdEffect]
  · simp only [Function.update_same, and_self]
  · intro addr
    exact Timer_SetInterruptBase_other dev addr period prescaler f pp sp s

/-- C18 (witness of the amended statement) on the sample build, timer 2. -/
theorem Timer_SetInterruptBase_effect_order_witness :
    sampleDevice.irqNumber (irqLine TIMER2) % 256 ≠ 0 ∧
    (Timer_SetInterruptBase sampleDevice (TIM TIMER2) 50 1000 7 0 0 startState).log =
      startState.log ++
        [Effect.storeCallback TIMER2 7,
         Effect.TMR_Reset TIMER2,
         clockCmdEffect TIMER2 true,
         Effect.TMR_TimeBaseInit TIMER2
           { TMR_RepetitionCounter := 0, TMR_Period := minusOne16 50,
             TMR_DIV := minusOne16 1000, clockDivision1 := true,
             counterDirUp := true, plusEnable := true },
         Effect.NVIC_Init
           { NVIC_IRQChannel := sampleDevice.irqNumber (irqLine TIMER2) % 256,
             NVIC_IRQChannelPreemptionPriority := 0,
             NVIC_IRQChannelSubPriority := 0,
             NVIC_IRQChannelCmd := true },
         Effect.TMR_ClearFlag TIMER2,
         Effect.TMR_INTConfig TIMER2 true] :=
  ⟨by decide,
    (Timer_SetInterruptBase_effect_order sampleDevice TIMER2 50 1000 7 0 0 startState
      (by decide)).1⟩

theorem TMRx_IRQHANDLER_other (m n : TIMER_Type) (hmn : m ≠ n) (s : State) :
    (TMRx_IRQHANDLER m s).pending n = s.pending n ∧
    ∀ f, (TMRx_IRQHANDLER m s).log.count (Effect.callback n f)
      = s.log.count (Effect.callback n f) := by
  constructor
  · rw [TMRx_IRQHANDLER_pending, Function.update_noteq (Ne.symm hmn)]
  · intro f
    rw [TMRx_IRQHANDLER_log, List.count_append]
    have hnm : ¬ (n = m) := fun h => hmn h.symm
    have : (dispatchSpec m s).count (Effect.callback n f) = 0 := by
      unfold dispatchSpec
      by_cases hp : s.pending m = true
      · by_cases hf : s.TIMx_Function m = 0
        · simp [hp, hf]
        · simp [hp, hf, hmn, hnm]
      · simp [hp]
    rw [this, Nat.add_zero]

theorem TMRx_IRQHANDLER_two_other (a b n : TIMER_Type) (han : a ≠ n) (hbn : b ≠ n)
    (s : State) :
    (TMRx_IRQHANDLER b (TMRx_IRQHANDLER a s)).pending n = s.pending n ∧
    ∀ f, (TMRx_IRQHANDLER b (TMRx_IRQHANDLER a s)).log.count (Effect.callback n f)
      = s.log.count (Effect.callback n f) := by
  obtain ⟨p1, c1⟩ := TMRx_IRQHANDLER_other a n han s
  obtain ⟨p2, c2⟩ := TMRx_IRQHANDLER_other b n hbn (TMRx_IRQHANDLER a s)
  exact ⟨by rw [p2, p1], fun f => by rw [c2, c1]⟩

theorem IRQHandlers_skip (n : TIMER_Type)
    (h1 : TIMER1 ≠ n) (h2 : TIMER2 ≠ n) (h3 : TIMER3 ≠ n) (h4 : TIMER4 ≠ n)
    (h5 : TIMER5 ≠ n) (h6 : TIMER6 ≠ n) (h7 : TIMER7 ≠ n) (h8 : TIMER8 ≠ n)
    (h10 : TIMER10 ≠ n) (h13 : TIMER13 ≠ n) (h15 : TIMER15 ≠ n) (s : State) :
    List.Forall
      (fun h : State → State =>
        (h s).pending n = s.pending n ∧
        ∀ f, (h s).log.count (Effect.callback n f) = s.log.count (Effect.callback n f))
      IRQHandlers := by
  unfold IRQHandlers
  simp only [List.forall_cons, List.Forall]
  exact ⟨TMRx_IRQHANDLER_two_other _ _ n h1 h10 s, TMRx_IRQHANDLER_other _ n h2 s,
    TMRx_IRQHANDLER_other _ n h3 s, TMRx_IRQHANDLER_other _ n h4 s,
    TMRx_IRQHANDLER_other _ n h5 s, TMRx_IRQHANDLER_other _ n h6 s,
    TMRx_IRQHANDLER_other _ n h7 s, TMRx_IRQHANDLER_two_other _ _ n h8 h13 s,
    TMRx_IRQHANDLER_other _ n h15 s⟩

/-- C19 (the code at the failing input). `Timer_SetInterruptBase(TIM9, .., f, ..)` on
the sample build stores the callback of timer 9, enables its interrupt line
`TMR1_BRK_TMR9_IRQn` and its overflow interrupt; but in every state no handler that
`timer.c` defines services timer 9, 11, 12 or 14: each handler leaves the pending
flag of these timers as it was and invokes none of their callbacks. -/
theorem no_handler_for_timer_9_11_12_14 :
    ((Timer_SetInterruptBase sampleDevice (TIM TIMER9) 50 1000 7 0 0 startState).TIMx_Function
        TIMER9 = 7 ∧
      (Timer_SetInterruptBase sampleDevice (TIM TIMER9) 50 1000 7 0 0 startState).overflowInt
        TIMER9 = true ∧
      (Timer_SetInterruptBase sampleDevice (TIM TIMER9) 50 1000 7 0 0 startState).nvic
        (sampleDevice.irqNumber TMR1_BRK_TMR9_IRQn % 256) =
          some { NVIC_IRQChannel := 24, NVIC_IRQChannelPreemptionPriority := 0,
                 NVIC_IRQChannelSubPriority := 0, NVIC_IRQChannelCmd := true }) ∧
    ∀ s : State,
      List.Forall
        (fun h : State → State =>
          ((h s).pending TIMER9 = s.pending TIMER9 ∧
            ∀ f, (h s).log.count (Effect.callback TIMER9 f)
              = s.log.count (Effect.callback TIMER9 f)) ∧
          ((h s).pending TIMER11 = s.pending TIMER11 ∧
            ∀ f, (h s).log.count (Effect.callback TIMER11 f)
              = s.log.count (Effect.callback TIMER11 f)) ∧
          ((h s).pending TIMER12 = s.pending TIMER12 ∧
            ∀ f, (h s).log.count (Effect.callback TIMER12 f)
              = s.log.count (Effect.callback TIMER12 f)) ∧
          ((h s).pending TIMER14 = s.pending TIMER14 ∧
            ∀ f, (h s).log.count (Effect.callback TIMER14 f)
              = s.log.count (Effect.callback TIMER14 f)))
        IRQHandlers := by
  constructor
  · rw [Timer_SetInterruptBase_TIM sampleDevice TIMER9 50 1000 7 0 0 startState (by decide)]
    refine ⟨by simp, by simp, ?_⟩
    simp only [irqLine, Function.update_same]
    decide
  · intro s
    have a := IRQHandlers_skip TIMER9 (by decide) (by decide) (by decide) (by decide)
      (by decide) (by decide) (by decide) (by decide) (by decide) (by decide) (by decide) s
    have b := IRQHandlers_skip TIMER11 (by decide) (by decide) (by decide) (by decide)
      (by decide) (by decide) (by decide) (by decide) (by decide) (by decide) (by decide) s
    have c := IRQHandlers_skip TIMER12 (by decide) (by decide) (by decide) (by decide)
      (by decide) (by decide) (by decide) (by decide) (by decide) (by decide) (by decide) s
    have d := IRQHandlers_skip TIMER14 (by decide) (by decide) (by decide) (by decide)
      (by decide) (by decide) (by decide) (by decide) (by decide) (by decide) (by decide) s
    unfold IRQHandlers at a b c d ⊢
    simp only [List.forall_cons, List.Forall] at a b c d ⊢
    obtain ⟨a1, a2, a3, a4, a5, a6, a7, a8, a9⟩ := a
    obtain ⟨b1, b2, b3, b4, b5, b6, b7, b8, b9⟩ := b
    obtain ⟨c1, c2, c3, c4, c5, c6, c7, c8, c9⟩ := c
    obtain ⟨d1, d2, d3, d4, d5, d6, d7, d8, d9⟩ := d
    exact ⟨⟨a1, b1, c1, d1⟩, ⟨a2, b2, c2, d2⟩, ⟨a3, b3, c3, d3⟩, ⟨a4, b4, c4, d4⟩,
      ⟨a5, b5, c5, d5⟩, ⟨a6, b6, c6, d6⟩, ⟨a7, b7, c7, d7⟩, ⟨a8, b8, c8, d8⟩,
      ⟨a9, b9, c9, d9⟩⟩

/-! ## Tone generator: interrupt-driven tone -/

theorem noTone_valid (IS_PIN : Nat → Bool) (Pin : Nat) (s : ToneState)
    (hpin : IS_PIN Pin = true) :
    noTone IS_PIN Pin s =
      { s with IsToneEnable := false,
               log := s.log ++ [ToneEffect.TIM_Cmd s.ToneTimer false,
                                ToneEffect.digitalWrite_LOW Pin] } := by
  unfold noTone TIM_Cmd digitalWrite_LOW
  simp [hpin]

theorem tone_valid (IS_PIN : Nat → Bool) (Pin freq : Nat) (s : ToneState)
    (hpin : IS_PIN Pin = true) (h1 : 1 ≤ freq) (h2 : freq ≤ 500000) :
    tone IS_PIN Pin freq s =
      if s.ToneTimer ≠ s.ToneTimer_Last then
        { s with tone_Pin := Pin, IsToneEnable := true, ToneTimer_Last := s.ToneTimer,
                 log := s.log ++
                   [ToneEffect.Timer_Init s.ToneTimer (500000 / freq)
                      ToneCallback.toneTimer_Handler 0 0,
                    ToneEffect.TIM_Cmd s.ToneTimer true] }
      else
        { s with tone_Pin := Pin, IsToneEnable := true,
                 log := s.log ++
                   [ToneEffect.TimerSet_InterruptTimeUpdate s.ToneTimer (500000 / freq),
                    ToneEffect.TIM_Cmd s.ToneTimer true] } := by
  have hfreq : ¬ (freq = 0 ∨ freq > 500000) := by omega
  unfold tone Timer_Init TimerSet_InterruptTimeUpdate TIM_Cmd
  simp only [hpin, Bool.not_true, Bool.false_eq_true, if_false, hfreq]
  by_cases h : s.ToneTimer = s.ToneTimer_Last
  · simp [h]
  · simp [h]

/-- C11. Tone guard clauses. For both `tone(Pin, freq)` and `tone(Pin, freq, Time_ms)`:
a call with an invalid pin changes nothing; a call with a valid pin and `freq == 0` or
`freq > 500000` is exactly `noTone(Pin)`, which disables the tone timer, drives `Pin`
low and clears the enabled flag, and changes neither the tone pin nor the stop
deadline nor configures the timer. -/
theorem tone_guard_clauses (IS_PIN : Nat → Bool) (Pin freq Time_ms : Nat) (s : ToneState) :
    (IS_PIN Pin = false →
      tone IS_PIN Pin freq s = s ∧ tone_Time_ms IS_PIN Pin freq Time_ms s = s) ∧
    (IS_PIN Pin = true → (freq = 0 ∨ freq > 500000) →
      tone IS_PIN Pin freq s = noTone IS_PIN Pin s ∧
      tone_Time_ms IS_PIN Pin freq Time_ms s = noTone IS_PIN Pin s ∧
      noTone IS_PIN Pin s =
        { s with IsToneEnable := false,
                 log := s.log ++ [ToneEffect.TIM_Cmd s.ToneTimer false,
                                  ToneEffect.digitalWrite_LOW Pin] } ∧
      (noTone IS_PIN Pin s).tone_Pin = s.tone_Pin ∧
      (noTone IS_PIN Pin s).tone_StopTimePoint = s.tone_StopTimePoint ∧
      (noTone IS_PIN Pin s).ToneTimer_Last = s.ToneTimer_Last) := by
  constructor
  · intro hpin
    unfold tone tone_Time_ms
    simp [hpin]
  · intro hpin hfreq
    have hno := noTone_valid IS_PIN Pin s hpin
    refine ⟨?_, ?_, hno, ?_, ?_, ?_⟩
    · unfold tone
      simp only [hpin, Bool.not_true, Bool.false_eq_true, if_false, hfreq, if_true]
    · unfold tone_Time_ms
      simp only [hpin, Bool.not_true, Bool.false_eq_true, if_false, hfreq, if_true]
    · rw [hno]
    · rw [hno]
    · rw [hno]

/-- C11 (witness): pin 5 valid, pin 9 invalid, `freq = 600000` from the start-up
state with tone timer `1`. -/
theorem tone_guard_clauses_witness :
    tone (fun p => decide (p = 5)) 9 600000 (toneStart 1) = toneStart 1 ∧
    tone_Time_ms (fun p => decide (p = 5)) 5 600000 100 (toneStart 1) =
      { toneStart 1 with
          IsToneEnable := false,
          log := [ToneEffect.TIM_Cmd 1 false, ToneEffect.digitalWrite_LOW 5] } := by
  have h := tone_guard_clauses (fun p => decide (p = 5)) 5 600000 100 (toneStart 1)
  have h' := tone_guard_clauses (fun p => decide (p = 5)) 9 600000 100 (toneStart 1)
  refine ⟨(h'.1 (by decide)).1, ?_⟩
  obtain ⟨_, e2, e3, _⟩ := h.2 (by decide) (Or.inr (by decide))
  rw [e2, e3]
  rfl

/-- C12. For a valid pin and `1 ≤ freq ≤ 500000`, `tone(Pin, freq)` makes `Pin` the
tone pin, sets the enabled flag, configures the tone timer with the interrupt period
`500000 / freq` microseconds (`500` for `freq = 1000`) and enables it; the path is
chosen by comparing `ToneTimer` with `ToneTimer_Last`: the full configuration
`Timer_Init` registering `toneTimer_Handler` when they differ (first use of the
selected timer, as at start-up), the cheap `TimerSet_InterruptTimeUpdate` when they
are equal (every later use, as in a second call), and `ToneTimer_Last` equals
`ToneTimer` afterwards; each firing of the handler toggles `Pin`. -/
theorem tone_configures_timer (IS_PIN : Nat → Bool) (Pin freq : Nat) (s : ToneState)
    (hpin : IS_PIN Pin = true) (h1 : 1 ≤ freq) (h2 : freq ≤ 500000) :
    (tone IS_PIN Pin freq s =
      if s.ToneTimer ≠ s.ToneTimer_Last then
        { s with tone_Pin := Pin, IsToneEnable := true, ToneTimer_Last := s.ToneTimer,
                 log := s.log ++
                   [ToneEffect.Timer_Init s.ToneTimer (500000 / freq)
                      ToneCallback.toneTimer_Handler 0 0,
                    ToneEffect.TIM_Cmd s.ToneTimer true] }
      else
        { s with tone_Pin := Pin, IsToneEnable := true,
                 log := s.log ++
                   [ToneEffect.TimerSet_InterruptTimeUpdate s.ToneTimer (500000 / freq),
                    ToneEffect.TIM_Cmd s.ToneTimer true] }) ∧
    ((tone IS_PIN Pin freq s).tone_Pin = Pin ∧
      (tone IS_PIN Pin freq s).IsToneEnable = true ∧
      (tone IS_PIN Pin freq s).ToneTimer = s.ToneTimer ∧
      (tone IS_PIN Pin freq s).ToneTimer_Last = s.ToneTimer) ∧
    (1 ≤ 500000 / freq ∧ 500000 / freq * (2 * freq) ≤ 1000000 ∧ 500000 / 1000 = 500) ∧
    (∀ ToneTimer_Default : Nat, ToneTimer_Default ≠ 0 →
      (tone IS_PIN Pin freq (toneStart ToneTimer_Default)).log =
        [ToneEffect.Timer_Init ToneTimer_Default (500000 / freq)
           ToneCallback.toneTimer_Handler 0 0,
         ToneEffect.TIM_Cmd ToneTimer_Default true]) ∧
    (∀ Pin2 freq2 : Nat, IS_PIN Pin2 = true → 1 ≤ freq2 → freq2 ≤ 500000 →
      (tone IS_PIN Pin2 freq2 (tone IS_PIN Pin freq s)).log =
        (tone IS_PIN Pin freq s).log ++
          [ToneEffect.TimerSet_InterruptTimeUpdate s.ToneTimer (500000 / freq2),
           ToneEffect.TIM_Cmd s.ToneTimer true]) ∧
    (toneTimer_Handler IS_PIN (tone IS_PIN Pin freq s)).log =
      (tone IS_PIN Pin freq s).log ++ [ToneEffect.togglePin Pin] := by
  have hval := tone_valid IS_PIN Pin freq s hpin h1 h2
  have hfields : (tone IS_PIN Pin freq s).tone_Pin = Pin ∧
      (tone IS_PIN Pin freq s).IsToneEnable = true ∧
      (tone IS_PIN Pin freq s).ToneTimer = s.ToneTimer ∧
      (tone IS_PIN Pin freq s).ToneTimer_Last = s.ToneTimer := by
    rw [hval]
    by_cases h : s.ToneTimer = s.ToneTimer_Last
    · simp [h]
    · simp [h]
  refine ⟨hval, hfields, ⟨?_, ?_, by decide⟩, ?_, ?_, ?_⟩
  · exact (Nat.one_le_div_iff (by omega)).mpr h2
  · calc 500000 / freq * (2 * freq) = 2 * (500000 / freq * freq) := by ring
      _ ≤ 2 * 500000 := Nat.mul_le_mul_left 2 (Nat.div_mul_le_self 500000 freq)
      _ = 1000000 := by norm_num
  · intro d hd
    rw [tone_valid IS_PIN Pin freq (toneStart d) hpin h1 h2]
    have : (toneStart d).ToneTimer ≠ (toneStart d).ToneTimer_Last := hd
    rw [if_pos this]
    rfl
  · intro Pin2 freq2 hpin2 g1 g2
    obtain ⟨_, _, f3, f4⟩ := hfields
    rw [tone_valid IS_PIN Pin2 freq2 (tone IS_PIN Pin freq s) hpin2 g1 g2]
    have : ¬ ((tone IS_PIN Pin freq s).ToneTimer ≠ (tone IS_PIN Pin freq s).ToneTimer_Last) := by
      rw [f3, f4]; simp
    rw [if_neg this, f3]
  · obtain ⟨f1, f2, _, _⟩ := hfields
    unfold toneTimer_Handler togglePin
    simp only [f1, f2]
    simp

/-- C12 (witness): `tone(5, 1000)` at start-up with tone timer `1` configures the
timer in full with period `500` and enables it. -/
theorem tone_configures_timer_witness :
    ((fun p => decide (p = 5)) 5 = true ∧ 1 ≤ 1000 ∧ 1000 ≤ 500000) ∧
    tone (fun p => decide (p = 5)) 5 1000 (toneStart 1) =
      { toneStart 1 with
          tone_Pin := 5, IsToneEnable := true, ToneTimer_Last := 1,
          log := [ToneEffect.Timer_Init 1 500 ToneCallback.toneTimer_Handler 0 0,
                  ToneEffect.TIM_Cmd 1 true] } := by
  refine ⟨by decide, ?_⟩
  rw [(tone_configures_timer (fun p => decide (p = 5)) 5 1000 (toneStart 1) (by decide)
    (by decide) (by decide)).1]
  rfl

theorem toneTimer_Handler_armed (IS_PIN : Nat → Bool) (s : ToneState)
    (h : s.IsToneEnable = true) :
    toneTimer_Handler IS_PIN s = { s with log := s.log ++ [ToneEffect.togglePin s.tone_Pin] } := by
  unfold toneTimer_Handler togglePin
  simp [h]

theorem toneTimer_Handler_armed_run (IS_PIN : Nat → Bool) :
    ∀ (times : List Nat) (s : ToneState), s.IsToneEnable = true →
      (times.foldl (fun st t => toneTimer_Handler IS_PIN { st with elapsed_us := t }) s).IsToneEnable
        = true ∧
      (times.foldl (fun st t => toneTimer_Handler IS_PIN { st with elapsed_us := t }) s).log
        = s.log ++ List.replicate times.length (ToneEffect.togglePin s.tone_Pin) := by
  intro times
  induction times with
  | nil => intro s h; exact ⟨h, by simp⟩
  | cons t ts ih =>
    intro s h
    simp only [List.foldl_cons, List.length_cons, List.replicate_succ]
    rw [toneTimer_Handler_armed IS_PIN { s with elapsed_us := t } h]
    obtain ⟨i1, i2⟩ := ih
      { s with elapsed_us := t, log := s.log ++ [ToneEffect.togglePin s.tone_Pin] } h
    refine ⟨i1, ?_⟩
    rw [i2]
    simp

/-- C13. Timed tone stop. After a valid `tone(Pin, freq, Time_ms)` issued at
millisecond time `t0 = millis()`, the stop deadline is the 32-bit sum `t0 + Time_ms`
and the enabled (re-armed) flag is false. Every invocation of `toneTimer_Handler`
toggles the tone pin and then calls `noTone` on it (timer disabled, tone pin driven
low) if and only if `millis()` is past the deadline and the flag is false.
Consequently after the two-argument `tone(Pin, freq)`, which sets the flag, no
sequence of handler invocations, at whatever times, stops the tone: each only
toggles the pin. -/
theorem timed_tone_stop (IS_PIN : Nat → Bool) (Pin freq Time_ms : Nat) (s : ToneState)
    (hpin : IS_PIN Pin = true) (h1 : 1 ≤ freq) (h2 : freq ≤ 500000) :
    ((tone_Time_ms IS_PIN Pin freq Time_ms s).tone_StopTimePoint
        = (millis s + Time_ms) % 4294967296 ∧
      (millis s + Time_ms < 4294967296 →
        (tone_Time_ms IS_PIN Pin freq Time_ms s).tone_StopTimePoint = millis s + Time_ms) ∧
      (tone_Time_ms IS_PIN Pin freq Time_ms s).IsToneEnable = false ∧
      (tone_Time_ms IS_PIN Pin freq Time_ms s).tone_Pin = Pin) ∧
    (∀ st : ToneState, IS_PIN st.tone_Pin = true →
      (toneTimer_Handler IS_PIN st).log =
        st.log ++ [ToneEffect.togglePin st.tone_Pin] ++
          (if millis st > st.tone_StopTimePoint ∧ st.IsToneEnable = false then
            [ToneEffect.TIM_Cmd st.ToneTimer false, ToneEffect.digitalWrite_LOW st.tone_Pin]
          else []) ∧
      (toneTimer_Handler IS_PIN st).IsToneEnable =
        (if millis st > st.tone_StopTimePoint ∧ st.IsToneEnable = false then false
         else st.IsToneEnable)) ∧
    (∀ st : ToneState,
      toneTimer_Handler IS_PIN st =
        if millis st > st.tone_StopTimePoint ∧ st.IsToneEnable = false then
          noTone IS_PIN st.tone_Pin (togglePin st.tone_Pin st)
        else togglePin st.tone_Pin st) ∧
    (∀ times : List Nat,
      (times.foldl (fun st t => toneTimer_Handler IS_PIN { st with elapsed_us := t })
          (tone IS_PIN Pin freq s)).IsToneEnable = true ∧
      (times.foldl (fun st t => toneTimer_Handler IS_PIN { st with elapsed_us := t })
          (tone IS_PIN Pin freq s)).log
        = (tone IS_PIN Pin freq s).log ++
            List.replicate times.length (ToneEffect.togglePin Pin)) := by
  have hfreq : ¬ (freq = 0 ∨ freq > 500000) := by omega
  have hval := tone_valid IS_PIN Pin freq s hpin h1 h2
  have htone : (tone IS_PIN Pin freq s).tone_Pin = Pin ∧
      (tone IS_PIN Pin freq s).IsToneEnable = true ∧
      millis (tone IS_PIN Pin freq s) = millis s := by
    rw [hval]
    by_cases h : s.ToneTimer = s.ToneTimer_Last
    · simp [h, millis]
    · simp [h, millis]
  have hdead : (tone_Time_ms IS_PIN Pin freq Time_ms s).tone_StopTimePoint
      = (millis s + Time_ms) % 4294967296 := by
    unfold tone_Time_ms
    simp only [hpin, Bool.not_true, Bool.false_eq_true, if_false, hfreq, htone.2.2]
  refine ⟨⟨hdead, ?_, ?_, ?_⟩, ?_, ?_, ?_⟩
  · intro hfit
    rw [hdead, Nat.mod_eq_of_lt hfit]
  · unfold tone_Time_ms
    simp only [hpin, Bool.not_true, Bool.false_eq_true, if_false, hfreq]
  · unfold tone_Time_ms
    simp only [hpin, Bool.not_true, Bool.false_eq_true, if_false, hfreq, htone.1]
  · intro st hst
    unfold toneTimer_Handler
    have hm : millis (togglePin st.tone_Pin st) = millis st := rfl
    have hp : (togglePin st.tone_Pin st).tone_Pin = st.tone_Pin := rfl
    have hd : (togglePin st.tone_Pin st).tone_StopTimePoint = st.tone_StopTimePoint := rfl
    have he : (togglePin st.tone_Pin st).IsToneEnable = st.IsToneEnable := rfl
    simp only [hm, hp, hd, he]
    by_cases hc : millis st > st.tone_StopTimePoint ∧ st.IsToneEnable = false
    · rw [if_pos hc, if_pos hc, if_pos hc, noTone_valid IS_PIN _ _ hst]
      simp [togglePin]
    · rw [if_neg hc, if_neg hc, if_neg hc]
      simp [togglePin]
  · intro st
    rfl
  · intro times
    have := toneTimer_Handler_armed_run IS_PIN times (tone IS_PIN Pin freq s) htone.2.1
    rw [htone.1] at this
    exact this

/-- C13 (witness): `tone(5, 1000, 100)` at start-up (millisecond time `0`) sets the
deadline `100` and clears the flag. -/
theorem timed_tone_stop_witness :
    ((fun p => decide (p = 5)) 5 = true ∧ 1 ≤ 1000 ∧ 1000 ≤ 500000) ∧
    (tone_Time_ms (fun p => decide (p = 5)) 5 1000 100 (toneStart 1)).tone_StopTimePoint
        = (millis (toneStart 1) + 100) % 4294967296 ∧
    (tone_Time_ms (fun p => decide (p = 5)) 5 1000 100 (toneStart 1)).IsToneEnable = false :=
  ⟨by decide,
    (timed_tone_stop (fun p => decide (p = 5)) 5 1000 100 (toneStart 1) (by decide)
      (by decide) (by decide)).1.1,
    (timed_tone_stop (fun p => decide (p = 5)) 5 1000 100 (toneStart 1) (by decide)
      (by decide) (by decide)).1.2.2.1⟩

/-! ## Tone generator: blocking tone -/

/-- C14 (the code at the failing input). With `freq = 1000` and `vol = 0.25` (the
fraction `1 / 4`), `dlyus` is the half period `500`, so `dlHigh = 500 * 0.25 = 125`
and `dlLow = 2 * 500 - 125 = 875`: both `toneBlock_Volumn(3, 1000, 5, 0.25)` and
`toneBlock_Volumn_us(3, 1000, 5000, 0.25)` run five cycles that hold the pin high for
`125` of each `1000` microseconds, which is 12.5 % and not 25 %. For every volume
between `0` and `1` the high time is at most the half period. -/
theorem toneBlock_Volumn_halves_duty :
    (dlHigh_of (500000 / 1000) 1 4 = 125 ∧ dlLow_of (500000 / 1000) 125 = 875 ∧
      125 + 875 = 1000 ∧ 125 * 4 ≠ 1000 * 1) ∧
    toneBlock_Volumn (fun _ => true) 3 1000 5 1 4 5 (toneStart 1) =
      some { toneStart 1 with
        elapsed_us := 5000,
        log := blockCycles 3 125 875 5 ++ [ToneEffect.digitalWrite_LOW 3] } ∧
    toneBlock_Volumn_us (fun _ => true) 3 1000 5000 1 4 5 (toneStart 1) =
      some { toneStart 1 with
        elapsed_us := 5000,
        log := blockCycles 3 125 875 5 ++ [ToneEffect.digitalWrite_LOW 3] } ∧
    (∀ (freq volDen : Nat) (volNum : Int), 0 < volDen → 0 ≤ volNum → volNum ≤ volDen →
      dlHigh_of (500000 / freq) volNum volDen ≤ 500000 / freq) := by
  refine ⟨by decide, by decide, by decide, ?_⟩
  intro freq volDen volNum hden h0 h1
  unfold dlHigh_of
  have hd : 500000 / freq ≤ 500000 := Nat.div_le_self _ _
  generalize 500000 / freq = d at hd
  have hle : (d : Int) * volNum / (volDen : Int) ≤ (d : Int) := by
    apply Int.ediv_le_of_le_mul (by exact_mod_cast hden)
    exact Int.mul_le_mul_of_nonneg_left h1 (by exact_mod_cast Nat.zero_le d)
  have hnn : 0 ≤ (d : Int) * volNum / (volDen : Int) :=
    Int.ediv_nonneg (Int.mul_nonneg (by exact_mod_cast Nat.zero_le d) h0)
      (by exact_mod_cast Nat.zero_le volDen)
  have hto : ((d : Int) * volNum / (volDen : Int)).toNat ≤ d := by
    omega
  exact le_trans (Nat.mod_le _ _) hto

theorem doWhile_millis_run (Pin dlHigh dlLow TimePoint : Nat) :
    ∀ (n fuel : Nat) (s : ToneState),
      (∀ k, 1 ≤ k → k ≤ n →
        (s.elapsed_us + k * (dlHigh + dlLow)) / 1000 % 4294967296 < TimePoint) →
      ¬ ((s.elapsed_us + (n + 1) * (dlHigh + dlLow)) / 1000 % 4294967296 < TimePoint) →
      n + 1 ≤ fuel →
      doWhile_millis Pin dlHigh dlLow TimePoint fuel s =
        some { s with elapsed_us := s.elapsed_us + (n + 1) * (dlHigh + dlLow),
                      log := s.log ++ blockCycles Pin dlHigh dlLow (n + 1) } := by
  intro n
  induction n with
  | zero =>
    intro fuel s _ hstop hfuel
    obtain ⟨f, rfl⟩ : ∃ f, fuel = f + 1 := ⟨fuel - 1, by omega⟩
    have hstop' : ¬ ((s.elapsed_us + dlHigh + dlLow) / 1000 % 4294967296 < TimePoint) := by
      have e : s.elapsed_us + (0 + 1) * (dlHigh + dlLow) = s.elapsed_us + dlHigh + dlLow := by
        ring
      rw [e] at hstop; exact hstop
    simp only [doWhile_millis, delayMicroseconds, digitalWrite_HIGH, digitalWrite_LOW, millis,
      hstop', if_false, blockCycles, blockCycle, List.append_assoc, List.singleton_append,
      List.cons_append, List.nil_append, List.append_nil]
    congr 2
    ring
  | succ m ih =>
    intro fuel s hcont hstop hfuel
    obtain ⟨f, rfl⟩ : ∃ f, fuel = f + 1 := ⟨fuel - 1, by omega⟩
    have h1 : (s.elapsed_us + dlHigh + dlLow) / 1000 % 4294967296 < TimePoint := by
      have := hcont 1 (le_refl _) (by omega)
      have e : s.elapsed_us + 1 * (dlHigh + dlLow) = s.elapsed_us + dlHigh + dlLow := by ring
      rw [e] at this; exact this
    have hrec := ih f
      { s with elapsed_us := s.elapsed_us + dlHigh + dlLow,
               log := s.log ++ blockCycle Pin dlHigh dlLow }
      (by
        intro k hk1 hk2
        have := hcont (k + 1) (by omega) (by omega)
        have e : s.elapsed_us + (k + 1) * (dlHigh + dlLow)
            = s.elapsed_us + dlHigh + dlLow + k * (dlHigh + dlLow) := by ring
        rw [e] at this; exact this)
      (by
        have e : s.elapsed_us + (m + 1 + 1) * (dlHigh + dlLow)
            = s.elapsed_us + dlHigh + dlLow + (m + 1) * (dlHigh + dlLow) := by ring
        rw [e] at hstop; exact hstop)
      (by omega)
    simp only [doWhile_millis, delayMicroseconds, digitalWrite_HIGH, digitalWrite_LOW, millis,
      h1, if_true, List.append_assoc, List.singleton_append, List.cons_append,
      List.nil_append]
    simp only [blockCycle, List.append_assoc, List.singleton_append, List.cons_append,
      List.nil_append] at hrec
    rw [hrec]
    simp only [blockCycles, blockCycle, List.append_assoc, List.singleton_append,
      List.cons_append, List.nil_append]
    congr 2
    ring

theorem blockPasses_bounds (freq Time_ms t0 : Nat) (hf : 0 < freq) (hf' : freq ≤ 500000)
    (hT : 0 < Time_ms) :
    1 ≤ blockPasses freq Time_ms t0 ∧
    1000 * (t0 / 1000 + Time_ms) ≤
      t0 + blockPasses freq Time_ms t0 * (500000 / freq + 500000 / freq) ∧
    t0 + blockPasses freq Time_ms t0 * (500000 / freq + 500000 / freq) <
      1000 * (t0 / 1000 + Time_ms) + (500000 / freq + 500000 / freq) := by
  have hd1 : 1 ≤ 500000 / freq := (Nat.one_le_div_iff hf).mpr hf'
  unfold blockPasses
  generalize 500000 / freq = d at hd1
  have hc : 2 * d = d + d := by ring
  rw [hc]
  have hm := Nat.div_add_mod t0 1000
  have hm2 := Nat.mod_lt t0 (show 0 < 1000 by decide)
  generalize hD : 1000 * (t0 / 1000 + Time_ms) - t0 = D
  have hDpos : 1 ≤ D := by omega
  have hDeq : 1000 * (t0 / 1000 + Time_ms) = t0 + D := by omega
  rw [hDeq]
  have hq := Nat.div_add_mod (D + (d + d) - 1) (d + d)
  have hr := Nat.mod_lt (D + (d + d) - 1) (show 0 < d + d by omega)
  have hcomm : (D + (d + d) - 1) / (d + d) * (d + d) = (d + d) * ((D + (d + d) - 1) / (d + d)) :=
    Nat.mul_comm _ _
  rw [hcomm]
  have h1 : 1 ≤ (D + (d + d) - 1) / (d + d) := by
    rw [Nat.le_div_iff_mul_le (by omega)]; omega
  generalize (d + d) * ((D + (d + d) - 1) / (d + d)) = X at hq
  exact ⟨h1, by omega, by omega⟩

/-- C15 (counterexample). In the simulated time base, `toneBlock(3, 30000, 1)` entered
at time zero has `dlyus = 500000 / 30000 = 16`, so one cycle lasts `32` microseconds
and the loop makes `32` passes before `millis()` reaches `1`; the claimed count
`Time_ms * freq / 1000` is `30`, and `32` is not within one of it. -/
theorem toneBlock_cycle_count_off :
    ((fun _ : Nat => true) 3 = true ∧ 0 < 30000 ∧ 0 < 1) ∧
    toneBlock (fun _ => true) 3 30000 1 32 (toneStart 1) =
      some { toneStart 1 with
        elapsed_us := 1024,
        log := blockCycles 3 16 16 32 ++ [ToneEffect.digitalWrite_LOW 3] } ∧
    (blockCycles 3 16 16 32).count (ToneEffect.digitalWrite_HIGH 3) = 32 ∧
    ¬ (1 * 30000 / 1000 - 1 ≤ 32 ∧ 32 ≤ 1 * 30000 / 1000 + 1) := by
  refine ⟨by decide, ?_, by decide, by decide⟩
  have hrun := doWhile_millis_run 3 16 16 1 31 32 (toneStart 1)
    (by
      intro k hk1 hk2
      show (0 + k * (16 + 16)) / 1000 % 4294967296 < 1
      have h0 : (0 + k * (16 + 16)) / 1000 = 0 := Nat.div_eq_of_lt (by omega)
      rw [h0]
      decide)
    (by decide) (le_refl _)
  unfold toneBlock
  have hTP : (millis (toneStart 1) + 1) % 4294967296 = 1 := by decide
  have hd : 500000 / 30000 = 16 := by decide
  simp only [hTP, hd, hrun]
  decide

/-- C15 (amended). In the simulated time base, `toneBlock(Pin, freq, Time_ms)` with a
valid pin, `0 < freq ≤ 500000` and `Time_ms > 0`, entered at `t0` elapsed microseconds
(the millisecond counter not wrapping), performs `blockPasses freq Time_ms t0 ≥ 1` full
high/low cycles, the least number of cycles of `2 * (500000 / freq)` microseconds
after which `millis()` has reached `t0 / 1000 + Time_ms`, each half lasting
`500000 / freq` microseconds, and returns with the pin low. That number is within one
of `Time_ms * freq / 1000` when `freq` divides `500000` and `t0` is a multiple of
`1000` (it is `5` for `freq = 500`, `Time_ms = 10`). With an invalid pin, `freq == 0`
or `Time_ms == 0` it returns without writing the pin. -/
theorem toneBlock_cycle_count (IS_PIN : Nat → Bool) (Pin freq Time_ms fuel : Nat)
    (s : ToneState) :
    (IS_PIN Pin = false ∨ freq = 0 ∨ Time_ms = 0 →
      toneBlock IS_PIN Pin freq Time_ms fuel s = some s) ∧
    (IS_PIN Pin = true → 0 < freq → freq ≤ 500000 → 0 < Time_ms →
      s.elapsed_us / 1000 + Time_ms + 1000 < 4294967296 →
      1 ≤ blockPasses freq Time_ms s.elapsed_us ∧
      (blockPasses freq Time_ms s.elapsed_us ≤ fuel →
        toneBlock IS_PIN Pin freq Time_ms fuel s =
          some { s with
            elapsed_us := s.elapsed_us +
              blockPasses freq Time_ms s.elapsed_us * (500000 / freq + 500000 / freq),
            log := s.log ++
              blockCycles Pin (500000 / freq) (500000 / freq)
                (blockPasses freq Time_ms s.elapsed_us) ++
              [ToneEffect.digitalWrite_LOW Pin] }) ∧
      (s.elapsed_us / 1000 + Time_ms ≤
        (s.elapsed_us +
          blockPasses freq Time_ms s.elapsed_us * (500000 / freq + 500000 / freq)) / 1000) ∧
      (∀ k, 1 ≤ k → k < blockPasses freq Time_ms s.elapsed_us →
        (s.elapsed_us + k * (500000 / freq + 500000 / freq)) / 1000
          < s.elapsed_us / 1000 + Time_ms) ∧
      (s.elapsed_us % 1000 = 0 → 500000 % freq = 0 →
        Time_ms * freq / 1000 ≤ blockPasses freq Time_ms s.elapsed_us ∧
        blockPasses freq Time_ms s.elapsed_us ≤ Time_ms * freq / 1000 + 1)) ∧
    blockPasses 500 10 0 = 5 := by
  refine ⟨?_, ?_, by decide⟩
  · intro h
    unfold toneBlock
    rcases h with h | h | h
    · simp [h]
    · simp [h]
    · simp [h]
  · intro hpin hf hf' hT hwrap
    obtain ⟨hN1, hlo, hhi⟩ := blockPasses_bounds freq Time_ms s.elapsed_us hf hf' hT
    have hd1 : 1 ≤ 500000 / freq := (Nat.one_le_div_iff hf).mpr hf'
    have hd2 : 500000 / freq ≤ 500000 := Nat.div_le_self _ _
    generalize hN : blockPasses freq Time_ms s.elapsed_us = N at hN1 hlo hhi ⊢
    generalize hdd : 500000 / freq = d at hd1 hd2 hlo hhi ⊢
    have hm := Nat.div_add_mod s.elapsed_us 1000
    have hm2 := Nat.mod_lt s.elapsed_us (show 0 < 1000 by decide)
    have hmillis : millis s = s.elapsed_us / 1000 := by
      unfold millis; exact Nat.mod_eq_of_lt (by omega)
    have hTP : (millis s + Time_ms) % 4294967296 = s.elapsed_us / 1000 + Time_ms := by
      rw [hmillis]; exact Nat.mod_eq_of_lt (by omega)
    have hcont : ∀ k, 1 ≤ k → k < N →
        (s.elapsed_us + k * (d + d)) / 1000 < s.elapsed_us / 1000 + Time_ms := by
      intro k _ hk
      have hk' : (k + 1) * (d + d) ≤ N * (d + d) := Nat.mul_le_mul_right _ (by omega)
      have e : (k + 1) * (d + d) = k * (d + d) + (d + d) := by ring
      rw [e] at hk'
      rw [Nat.div_lt_iff_lt_mul (by decide)]
      generalize k * (d + d) = Y at hk'
      generalize N * (d + d) = X at hlo hhi hk'
      omega
    have hstop : s.elapsed_us / 1000 + Time_ms ≤ (s.elapsed_us + N * (d + d)) / 1000 := by
      rw [Nat.le_div_iff_mul_le (by decide)]
      generalize N * (d + d) = X at hlo hhi
      omega
    have hend : (s.elapsed_us + N * (d + d)) / 1000 < 4294967296 := by
      rw [Nat.div_lt_iff_lt_mul (by decide)]
      generalize N * (d + d) = X at hlo hhi
      omega
    refine ⟨hN1, ?_, hstop, hcont, ?_⟩
    · intro hfuel
      obtain ⟨n, rfl⟩ : ∃ n, N = n + 1 := ⟨N - 1, by omega⟩
      have hrun := doWhile_millis_run Pin d d (s.elapsed_us / 1000 + Time_ms) n fuel s
        (by
          intro k hk1 hk2
          have := hcont k hk1 (by omega)
          rw [Nat.mod_eq_of_lt (by omega)]
          exact this)
        (by
          rw [Nat.mod_eq_of_lt hend]
          omega)
        hfuel
      unfold toneBlock
      have hguard : (!IS_PIN Pin || freq == 0 || Time_ms == 0) = false := by
        have h1 : freq ≠ 0 := by omega
        have h2 : Time_ms ≠ 0 := by omega
        simp [hpin, h1, h2]
      simp only [hguard, Bool.false_eq_true, if_false, hTP, hdd, hrun, digitalWrite_LOW]
    · intro halign hdiv
      have hdf : d * freq = 500000 := by
        rw [← hdd]; exact Nat.div_mul_cancel (Nat.dvd_of_mod_eq_zero hdiv)
      have hcf : (d + d) * freq = 1000000 := by
        rw [Nat.add_mul, hdf]
      have hD : 1000 * (s.elapsed_us / 1000 + Time_ms) = s.elapsed_us + 1000 * Time_ms := by
        omega
      rw [hD] at hlo hhi
      have hlo' : 1000 * Time_ms ≤ N * (d + d) := by omega
      have hhi' : N * (d + d) < 1000 * Time_ms + (d + d) := by omega
      have k1 : 1000 * Time_ms * freq ≤ N * (d + d) * freq := Nat.mul_le_mul_right _ hlo'
      have k2 : N * (d + d) * freq < (1000 * Time_ms + (d + d)) * freq :=
        Nat.mul_lt_mul_of_pos_right hhi' hf
      have e1 : N * (d + d) * freq = N * 1000000 := by rw [Nat.mul_assoc, hcf]
      have e2 : (1000 * Time_ms + (d + d)) * freq = 1000 * (Time_ms * freq) + 1000000 := by
        rw [Nat.add_mul, hcf]; ring
      have e3 : 1000 * Time_ms * freq = 1000 * (Time_ms * freq) := by ring
      rw [e1, e3] at k1
      rw [e1, e2] at k2
      have hq := Nat.div_add_mod (Time_ms * freq) 1000
      have hq2 := Nat.mod_lt (Time_ms * freq) (show 0 < 1000 by decide)
      generalize Time_ms * freq = TF at k1 k2 hq hq2 ⊢
      constructor <;> omega

/-- C15 (witness of the amended statement): `toneBlock(3, 500, 10)` entered at time
zero performs exactly `5` cycles of `1000` + `1000` microseconds and ends with the
pin low. -/
theorem toneBlock_cycle_count_witness :
    ((fun _ : Nat => true) 3 = true ∧ 0 < 500 ∧ 500 ≤ 500000 ∧ 0 < 10 ∧
      (toneStart 1).elapsed_us / 1000 + 10 + 1000 < 4294967296 ∧
      blockPasses 500 10 (toneStart 1).elapsed_us ≤ 5) ∧
    toneBlock (fun _ => true) 3 500 10 5 (toneStart 1) =
      some { toneStart 1 with
        elapsed_us := (toneStart 1).elapsed_us +
          blockPasses 500 10 (toneStart 1).elapsed_us * (500000 / 500 + 500000 / 500),
        log := (toneStart 1).log ++
          blockCycles 3 (500000 / 500) (500000 / 500)
            (blockPasses 500 10 (toneStart 1).elapsed_us) ++
          [ToneEffect.digitalWrite_LOW 3] } :=
  ⟨by decide,
    ((toneBlock_cycle_count (fun _ => true) 3 500 10 5 (toneStart 1)).2.1 rfl (by decide)
      (by decide) (by decide) (by decide)).2.1 (by decide)⟩

end Keilduino
